import Mathlib

/-!
Verification of the shockwave-diagram engine (`src/drawer_utils.py`,
`src/fundamental_diagram.py`, `src/shockwave_drawer.py`).

Real numbers of the Python source are embedded as rationals; the tolerant
comparison `float_isclose` (Python `math.isclose` with `abs_tol = 1e-4` and the
default `rel_tol = 1e-9`) is embedded exactly.  Python exceptions
(`ValueError`, `RuntimeError`, `AttributeError`, failed `assert`) are embedded
as `Except Err` results, with one `Err` constructor per distinct raise site.
-/

set_option maxHeartbeats 1000000

namespace TrafficShock

/-- Error outcome of an embedded Python function.  Each constructor stands for
one raise site of the source (message given in each constructor comment). -/
inductive Err where
  /-- dtPoint.get_slope: The two points have an invalid slope, as they share a time -/
  | sharedTime
  /-- Interface.get_slope: Interface does not have well-defined endpoints -/
  | noEndpoints
  /-- Interface.add_cutoff: The lower bound supplied is invalid -/
  | lowerBoundInvalid
  /-- Interface.add_cutoff: The upper bound supplied is invalid -/
  | upperBoundInvalid
  /-- Interface.add_cutoff: The lower and upper bounds are not oriented correctly -/
  | boundsMisordered
  /-- Interface.intersection: assert float_isclose(pos1, pos2) -/
  | intersectionAssert
  /-- FundamentalDiagram constructor: All speeds must be positive -/
  | speedsNotPositive
  /-- FundamentalDiagram constructor: Freeflow speed must be greater than traffic wave speed -/
  | freeflowNotGreater
  /-- FundamentalDiagram constructor: The provided initial density is not valid -/
  | initDensityInvalid
  /-- FundamentalDiagram.get_state: Density invalid, not in the fundamental diagram -/
  | densityNotInDiagram
  /-- FundamentalDiagram.get_interface_slope: The densities are equal, slope not well-defined -/
  | densitiesEqual
  /-- FundamentalDiagram.state_is_queued: Density of the provided state is invalid -/
  | stateDensityInvalid
  /-- ShockwaveDrawer resolve_state: assert interface.is_user_generated() -/
  | unresolvedNonUserInterface
  /-- ShockwaveDrawer resolve_state: assert res.above and res.below -/
  | resolvedInterfaceMissingState
  /-- ShockwaveDrawer handle_capacity_event: RuntimeError, an invalid interface was somehow created -/
  | invalidInterfaceCreated
  /-- Interface.set_below_state: assert self.below == state -/
  | belowStateMismatch
  /-- Interface.set_above_state: assert self.above == state -/
  | aboveStateMismatch
  /-- ShockwaveDrawer handle_intersection_event: assert len of interfaces at least 2 -/
  | tooFewInterfaces
  /-- ShockwaveDrawer handle_intersection_event: assert force or not is_user_generated -/
  | userInterfaceInIntersection
  /-- ShockwaveDrawer handle_intersection_event: assert above and below are not None -/
  | aboveBelowUnresolved
deriving DecidableEq, Repr

/-- ABS_TOL of drawer_utils.py (1e-4). -/
def ABS_TOL : ℚ := 1 / 10000

/-- Default rel_tol of math.isclose (1e-9), implicit in float_isclose. -/
def REL_TOL : ℚ := 1 / 1000000000

/-- Absolute value on the rationals, written so the kernel can evaluate it. -/
def qabs (x : ℚ) : ℚ := if x < 0 then -x else x

/-- Maximum on the rationals, written so the kernel can evaluate it. -/
def qmax (x y : ℚ) : ℚ := if x ≤ y then y else x

theorem qabs_eq_abs (x : ℚ) : qabs x = |x| := by
  unfold qabs
  split
  · exact (abs_of_neg (by assumption)).symm
  · exact (abs_of_nonneg (not_lt.mp (by assumption))).symm

theorem qmax_eq_max (x y : ℚ) : qmax x y = max x y := by
  unfold qmax
  split
  · exact (max_eq_right (by assumption)).symm
  · exact (max_eq_left (le_of_not_le (by assumption))).symm

/-- float_isclose of drawer_utils.py: math.isclose with abs_tol 1e-4 and the
default rel_tol 1e-9, i.e. abs(x-y) is at most max(rel_tol*max(abs x, abs y), abs_tol). -/
def float_isclose (x y : ℚ) : Bool :=
  decide (qabs (x - y) ≤ qmax (REL_TOL * qmax (qabs x) (qabs y)) ABS_TOL)

theorem float_isclose_iff (x y : ℚ) :
    float_isclose x y = true ↔ |x - y| ≤ max (REL_TOL * max |x| |y|) ABS_TOL := by
  simp [float_isclose, qabs_eq_abs, qmax_eq_max]

theorem float_isclose_refl (x : ℚ) : float_isclose x x = true := by
  rw [float_isclose_iff]
  rw [sub_self, abs_zero, le_max_iff]
  right
  norm_num [ABS_TOL]

theorem float_isclose_symm (x y : ℚ) : float_isclose x y = float_isclose y x := by
  simp only [float_isclose, qabs_eq_abs, qmax_eq_max, abs_sub_comm x y, max_comm |x| |y|]

theorem ne_of_not_isclose {x y : ℚ} (h : float_isclose x y = false) : x ≠ y := by
  intro hxy
  rw [hxy, float_isclose_refl] at h
  exact Bool.true_eq_false.mp h

/-- dtPoint of drawer_utils.py: a (time, position) point of the dt-plane. -/
structure dtPoint where
  time : ℚ
  position : ℚ
deriving DecidableEq, Repr

/-- dtPoint equality overload: both coordinates tolerantly equal. -/
def dtPoint.eqv (p q : dtPoint) : Bool :=
  float_isclose p.time q.time && float_isclose p.position q.position

theorem dtPoint_eqv_refl (p : dtPoint) : dtPoint.eqv p p = true := by
  simp [dtPoint.eqv, float_isclose_refl]

theorem dtPoint_eqv_symm (p q : dtPoint) : dtPoint.eqv p q = dtPoint.eqv q p := by
  simp [dtPoint.eqv, float_isclose_symm p.time q.time, float_isclose_symm p.position q.position]

/-- dtPoint.get_slope: slope between two points, ValueError when the times are
tolerantly equal. -/
def dtPoint.get_slope (p q : dtPoint) : Except Err ℚ :=
  if float_isclose p.time q.time then .error .sharedTime
  else .ok ((p.position - q.position) / (p.time - q.time))

/-- State of drawer_utils.py: a (density, flow) pair.  The identity counter of
the source is irrelevant to value comparisons and is omitted. -/
structure State where
  density : ℚ
  flow : ℚ
deriving DecidableEq, Repr

/-- State equality overload: density and flow tolerantly equal. -/
def State.eqv (a b : State) : Bool :=
  float_isclose a.density b.density && float_isclose a.flow b.flow

theorem State_eqv_refl (a : State) : State.eqv a a = true := by
  simp [State.eqv, float_isclose_refl]

/-- State.get_interface_slope: slope of the interface separating two states. -/
def State.get_interface_slope (a b : State) : ℚ :=
  (a.flow - b.flow) / (a.density - b.density)

/-- Event of drawer_utils.py, restricted to the fields its comparison
operators read: the event point and the integer priority. -/
structure Event where
  point : dtPoint
  priority : ℤ
deriving DecidableEq, Repr

/-- Event equality overload: same point (tolerantly) and same priority. -/
def Event.eqv (a b : Event) : Bool :=
  dtPoint.eqv a.point b.point && decide (a.priority = b.priority)

/-- Event less-than overload: time (tolerant) first, then priority ascending,
then position descending. -/
def Event.lt (a b : Event) : Bool :=
  if Event.eqv a b then false
  else if float_isclose a.point.time b.point.time then
    if a.priority = b.priority then decide (b.point.position < a.point.position)
    else decide (a.priority < b.priority)
  else decide (a.point.time < b.point.time)

theorem event_eqv_symm (a b : Event) : Event.eqv a b = Event.eqv b a := by
  simp only [Event.eqv, dtPoint_eqv_symm a.point b.point]
  by_cases h : a.priority = b.priority
  · rw [h]
  · rw [decide_eq_false h, decide_eq_false (fun hh => h hh.symm)]

/-- C3 (amended): the comparison on events orders by time (tolerantly), then by
priority ascending, then by position descending, and for every pair of events
exactly one of less-than, equal, greater-than holds.  (The less-than relation
is, however, not transitive; see the counterexample.) -/
theorem event_order_trichotomy (a b : Event) :
    (Event.lt a b = true ∧ Event.eqv a b = false ∧ Event.lt b a = false) ∨
    (Event.lt a b = false ∧ Event.eqv a b = true ∧ Event.lt b a = false) ∨
    (Event.lt a b = false ∧ Event.eqv a b = false ∧ Event.lt b a = true) := by
  cases hE : Event.eqv a b with
  | true =>
    refine Or.inr (Or.inl ⟨?_, rfl, ?_⟩)
    · simp [Event.lt, hE]
    · have hEba : Event.eqv b a = true := (event_eqv_symm b a).trans hE
      simp [Event.lt, hEba]
  | false =>
    have hEba : Event.eqv b a = false := (event_eqv_symm b a).trans hE
    cases hc : float_isclose a.point.time b.point.time with
    | true =>
      have hcb : float_isclose b.point.time a.point.time = true :=
        (float_isclose_symm b.point.time a.point.time).trans hc
      by_cases hp : a.priority = b.priority
      · have hp2 : b.priority = a.priority := hp.symm
        have hpos : float_isclose a.point.position b.point.position = false := by
          simpa [Event.eqv, dtPoint.eqv, hc, hp] using hE
        have hne := ne_of_not_isclose hpos
        rcases lt_trichotomy a.point.position b.point.position with h | h | h
        · refine Or.inr (Or.inr ⟨?_, rfl, ?_⟩)
          · simp [Event.lt, hE, hc, hp, not_lt.mpr h.le]
          · simp [Event.lt, hEba, hcb, hp2, h]
        · exact absurd h hne
        · refine Or.inl ⟨?_, rfl, ?_⟩
          · simp [Event.lt, hE, hc, hp, h]
          · simp [Event.lt, hEba, hcb, hp2, not_lt.mpr h.le]
      · have hps : ¬b.priority = a.priority := fun hh => hp hh.symm
        rcases lt_trichotomy a.priority b.priority with h | h | h
        · refine Or.inl ⟨?_, rfl, ?_⟩
          · simp [Event.lt, hE, hc, hp, h]
          · simp [Event.lt, hEba, hcb, hps, not_lt.mpr h.le]
        · exact absurd h hp
        · refine Or.inr (Or.inr ⟨?_, rfl, ?_⟩)
          · simp [Event.lt, hE, hc, hp, not_lt.mpr h.le]
          · simp [Event.lt, hEba, hcb, hps, h]
    | false =>
      have hcb : float_isclose b.point.time a.point.time = false :=
        (float_isclose_symm b.point.time a.point.time).trans hc
      have hne := ne_of_not_isclose hc
      rcases lt_trichotomy a.point.time b.point.time with h | h | h
      · refine Or.inl ⟨?_, rfl, ?_⟩
        · simp [Event.lt, hE, hc, h]
        · simp [Event.lt, hEba, hcb, not_lt.mpr h.le]
      · exact absurd h hne
      · refine Or.inr (Or.inr ⟨?_, rfl, ?_⟩)
        · simp [Event.lt, hE, hc, not_lt.mpr h.le]
        · simp [Event.lt, hEba, hcb, h]

/-- Concrete events whose pairwise tolerant time comparisons chain: the first
two pairs compare by priority, but the outer pair compares by raw time. -/
def evA : Event := ⟨⟨9 / 50000, 0⟩, 0⟩

/-- Second event of the non-transitivity triple. -/
def evB : Event := ⟨⟨9 / 100000, 0⟩, 1⟩

/-- Third event of the non-transitivity triple. -/
def evC : Event := ⟨⟨0, 0⟩, 2⟩

/-- C3 (counterexample): the event less-than relation is not transitive, hence
not a total order.  evA is less than evB and evB is less than evC (their times
are tolerantly equal, so priority decides), but evA is not less than evC
(their times are not tolerantly equal and the time of evA is larger). -/
theorem event_lt_not_transitive :
    Event.lt evA evB = true ∧ Event.lt evB evC = true ∧ Event.lt evA evC = false := by
  refine ⟨?_, ?_, ?_⟩ <;>
    norm_num [evA, evB, evC, Event.lt, Event.eqv, dtPoint.eqv, float_isclose, qabs, qmax,
      ABS_TOL, REL_TOL]

/-- FundamentalDiagram of fundamental_diagram.py: the four scalar parameters
kept by the constructor after validation. -/
structure FundamentalDiagram where
  freeflow_speed : ℚ
  jam_density : ℚ
  trafficwave_speed : ℚ
  init_density : ℚ
deriving DecidableEq, Repr

/-- Constructor of FundamentalDiagram with its three validation checks, in
source order. -/
def FundamentalDiagram.make (freeflow_speed jam_density traffic_wave_speed init_density : ℚ) :
    Except Err FundamentalDiagram :=
  if ¬(freeflow_speed > 0 ∧ jam_density > 0 ∧ traffic_wave_speed > 0) then
    .error .speedsNotPositive
  else if freeflow_speed ≤ traffic_wave_speed then
    .error .freeflowNotGreater
  else if ¬(init_density ≥ 0 ∧ init_density ≤ jam_density) then
    .error .initDensityInvalid
  else
    .ok ⟨freeflow_speed, jam_density, traffic_wave_speed, init_density⟩

/-- capacity_density: density at the apex of the triangular diagram. -/
def FundamentalDiagram.capacity_density (fd : FundamentalDiagram) : ℚ :=
  fd.trafficwave_speed * fd.jam_density / (fd.trafficwave_speed + fd.freeflow_speed)

/-- capacity: flow at the apex of the triangular diagram. -/
def FundamentalDiagram.capacity (fd : FundamentalDiagram) : ℚ :=
  fd.capacity_density * fd.freeflow_speed

/-- func: the scipy interp1d piecewise-linear interpolation through the knots
(0, 0), (capacity_density, capacity) and (jam_density, 0). -/
def FundamentalDiagram.func (fd : FundamentalDiagram) (d : ℚ) : ℚ :=
  if d ≤ fd.capacity_density then d * fd.capacity / fd.capacity_density
  else fd.capacity + (d - fd.capacity_density) * (0 - fd.capacity) /
    (fd.jam_density - fd.capacity_density)

/-- get_state: domain-checked piecewise-linear evaluation. -/
def FundamentalDiagram.get_state (fd : FundamentalDiagram) (density : ℚ) : Except Err State :=
  if ¬(density ≥ 0 ∧ density ≤ fd.jam_density) then .error .densityNotInDiagram
  else .ok ⟨density, fd.func density⟩

/-- get_initial_state: state at the initial density. -/
def FundamentalDiagram.get_initial_state (fd : FundamentalDiagram) : Except Err State :=
  fd.get_state fd.init_density

/-- get_interface_slope: slope of the state-transition line between the states
at two densities, error when the densities are tolerantly equal. -/
def FundamentalDiagram.get_interface_slope (fd : FundamentalDiagram) (x y : ℚ) : Except Err ℚ :=
  if float_isclose x y then .error .densitiesEqual
  else
    match fd.get_state x, fd.get_state y with
    | .ok s1, .ok s2 => .ok (s1.get_interface_slope s2)
    | .error e, _ => .error e
    | _, .error e => .error e

/-- get_max_state: the maximal-flow state of the diagram. -/
def FundamentalDiagram.get_max_state (fd : FundamentalDiagram) : State :=
  ⟨fd.capacity_density, fd.capacity⟩

/-- get_state_by_flow: inverse flow lookup with explicit branch selection; at
a flow tolerantly equal to the capacity both branches collapse to the maximal
state. -/
def FundamentalDiagram.get_state_by_flow (fd : FundamentalDiagram) (flow : ℚ) (left : Bool) :
    State :=
  if float_isclose flow fd.capacity then fd.get_max_state
  else if left then ⟨flow / fd.freeflow_speed, flow⟩
  else ⟨(flow - fd.capacity - fd.trafficwave_speed * fd.capacity_density) /
    (-fd.trafficwave_speed), flow⟩

/-- state_is_queued: density strictly above the capacity density, tolerantly,
with the domain check of the source. -/
def FundamentalDiagram.state_is_queued (fd : FundamentalDiagram) (s : State) : Except Err Bool :=
  if ¬(s.density ≥ 0 ∧ s.density ≤ fd.jam_density) then .error .stateDensityInvalid
  else .ok (decide (s.density > fd.capacity_density) && !float_isclose s.density fd.capacity_density)

/-- Parameter validity of a fundamental diagram, exactly the conjunction the
constructor accepts. -/
def FundamentalDiagram.Valid (fd : FundamentalDiagram) : Prop :=
  0 < fd.freeflow_speed ∧ 0 < fd.jam_density ∧ 0 < fd.trafficwave_speed ∧
    fd.trafficwave_speed < fd.freeflow_speed ∧ 0 ≤ fd.init_density ∧
    fd.init_density ≤ fd.jam_density

/-- C8: the FundamentalDiagram constructor succeeds exactly when the freeflow
speed, jam density and traffic wave speed are strictly positive, the freeflow
speed exceeds the traffic wave speed, and the initial density lies in
[0, jam density]; otherwise it raises. -/
theorem fundamental_diagram_make_ok_iff (v j w i : ℚ) :
    (∃ fd, FundamentalDiagram.make v j w i = .ok fd) ↔
      (0 < v ∧ 0 < j ∧ 0 < w ∧ w < v ∧ 0 ≤ i ∧ i ≤ j) := by
  constructor
  · rintro ⟨fd, hfd⟩
    unfold FundamentalDiagram.make at hfd
    by_cases h1 : v > 0 ∧ j > 0 ∧ w > 0
    · by_cases h2 : v ≤ w
      · rw [if_neg (not_not_intro h1), if_pos h2] at hfd
        exact absurd hfd (by simp)
      · by_cases h3 : i ≥ 0 ∧ i ≤ j
        · exact ⟨h1.1, h1.2.1, h1.2.2, not_le.mp h2, h3.1, h3.2⟩
        · rw [if_neg (not_not_intro h1), if_neg h2, if_pos h3] at hfd
          exact absurd hfd (by simp)
    · rw [if_pos h1] at hfd
      exact absurd hfd (by simp)
  · rintro ⟨hv, hj, hw, hwv, hi0, hij⟩
    unfold FundamentalDiagram.make
    rw [if_neg (not_not_intro ⟨hv, hj, hw⟩), if_neg (not_le.mpr hwv),
      if_neg (not_not_intro ⟨hi0, hij⟩)]
    exact ⟨_, rfl⟩

/-- C8 (witness): a concrete parameter set accepted by the constructor. -/
theorem fundamental_diagram_make_ok_iff_witness :
    ∃ fd, FundamentalDiagram.make 2 5 1 1 = .ok fd :=
  (fundamental_diagram_make_ok_iff 2 5 1 1).mpr (by norm_num)

theorem capacity_density_pos (fd : FundamentalDiagram) (hv : fd.Valid) :
    0 < fd.capacity_density := by
  obtain ⟨hf, hj, hw, _, _, _⟩ := hv
  exact div_pos (mul_pos hw hj) (add_pos hw hf)

theorem capacity_density_lt_jam (fd : FundamentalDiagram) (hv : fd.Valid) :
    fd.capacity_density < fd.jam_density := by
  obtain ⟨hf, hj, hw, _, _, _⟩ := hv
  rw [FundamentalDiagram.capacity_density, div_lt_iff₀ (add_pos hw hf)]
  nlinarith [mul_pos hj hf]

theorem capacity_eq_wave_mul (fd : FundamentalDiagram) (hv : fd.Valid) :
    fd.capacity = fd.trafficwave_speed * (fd.jam_density - fd.capacity_density) := by
  obtain ⟨hf, hj, hw, _, _, _⟩ := hv
  have hs : fd.trafficwave_speed + fd.freeflow_speed ≠ 0 := (add_pos hw hf).ne'
  rw [FundamentalDiagram.capacity, FundamentalDiagram.capacity_density]
  field_simp
  ring

/-- C4 (amended): for a valid diagram and a density d within [0, jam density]
whose state flow is not tolerantly equal to the capacity, get_state_by_flow on
the branch matching the side of d returns the density d exactly (hence within
tolerance).  When the flow is tolerantly equal to the capacity the maximal
state is returned instead, whose density can differ from d by more than the
tolerance (see the counterexample). -/
theorem get_state_by_flow_roundtrip (fd : FundamentalDiagram) (hv : fd.Valid) (d : ℚ)
    (h0 : 0 ≤ d) (hj : d ≤ fd.jam_density) (s : State) (hs : fd.get_state d = .ok s)
    (hnc : float_isclose s.flow fd.capacity = false) :
    (d ≤ fd.capacity_density → (fd.get_state_by_flow s.flow true).density = d) ∧
    (fd.capacity_density ≤ d → (fd.get_state_by_flow s.flow false).density = d) := by
  have hcd := capacity_density_pos fd hv
  have hcdj := capacity_density_lt_jam fd hv
  have hcap := capacity_eq_wave_mul fd hv
  obtain ⟨hf, hjp, hw, hwf, _, _⟩ := hv
  rw [FundamentalDiagram.get_state, if_neg (not_not_intro ⟨h0, hj⟩)] at hs
  obtain rfl : (⟨d, fd.func d⟩ : State) = s := by
    injection hs
  constructor
  · intro hd
    have hflow : fd.func d = d * fd.capacity / fd.capacity_density := by
      rw [FundamentalDiagram.func, if_pos hd]
    rw [FundamentalDiagram.get_state_by_flow]
    simp only [hnc, Bool.false_eq_true, if_false, if_true]
    show fd.func d / fd.freeflow_speed = d
    rw [hflow, FundamentalDiagram.capacity]
    field_simp
  · intro hd
    rcases eq_or_lt_of_le hd with heq | hlt
    · exfalso
      have hfl : fd.func d = fd.capacity := by
        rw [FundamentalDiagram.func, if_pos (le_of_eq heq.symm), ← heq]
        field_simp
      rw [hfl, float_isclose_refl] at hnc
      exact Bool.true_eq_false.mp hnc
    · have hflow : fd.func d = fd.capacity + (d - fd.capacity_density) * (0 - fd.capacity) /
          (fd.jam_density - fd.capacity_density) := by
        rw [FundamentalDiagram.func, if_neg (not_le.mpr hlt)]
      rw [FundamentalDiagram.get_state_by_flow]
      simp only [hnc, Bool.false_eq_true, if_false]
      show (fd.func d - fd.capacity - fd.trafficwave_speed * fd.capacity_density) /
        (-fd.trafficwave_speed) = d
      have hjcd : fd.jam_density - fd.capacity_density ≠ 0 := sub_ne_zero_of_ne (ne_of_gt hcdj)
      rw [hflow, hcap]
      field_simp
      ring

/-- Concrete valid diagram parameters of the round-trip witness. -/
def fdBase : FundamentalDiagram := ⟨2, 5, 1, 1⟩

/-- C4 (witness): for fdBase and the density 1 on the free-flow branch, the
round trip through get_state and get_state_by_flow returns the density 1. -/
theorem get_state_by_flow_roundtrip_witness :
    fdBase.get_state 1 = .ok ⟨1, 2⟩ ∧ (fdBase.get_state_by_flow 2 true).density = 1 := by
  have h1 : fdBase.get_state 1 = .ok ⟨1, 2⟩ := by
    norm_num [fdBase, FundamentalDiagram.get_state, FundamentalDiagram.func,
      FundamentalDiagram.capacity, FundamentalDiagram.capacity_density]
  refine ⟨h1, ?_⟩
  refine (get_state_by_flow_roundtrip fdBase ?_ 1 ?_ ?_ ⟨1, 2⟩ h1 ?_).1 ?_
  · norm_num [FundamentalDiagram.Valid, fdBase]
  · norm_num
  · norm_num [fdBase]
  · norm_num [float_isclose, qabs, qmax, ABS_TOL, REL_TOL, FundamentalDiagram.capacity,
      FundamentalDiagram.capacity_density, fdBase]
  · norm_num [FundamentalDiagram.capacity_density, fdBase]

/-- Concrete valid diagram with very small characteristic speeds, making the
tolerant capacity comparison of get_state_by_flow coarse relative to density. -/
def fdSmall : FundamentalDiagram := ⟨1 / 1000, 10, 1 / 2000, 1⟩

/-- C4 (counterexample): for the valid diagram fdSmall and the in-range
density 203/60 on the congested branch, the round trip through get_state and
get_state_by_flow does not give back a density tolerantly equal to 203/60:
the state flow is tolerantly equal to the capacity, so the lookup snaps to
the maximal state, whose density differs from the input by 1/20. -/
theorem get_state_by_flow_roundtrip_counterexample :
    fdSmall.Valid ∧ (0 : ℚ) ≤ 203 / 60 ∧ (203 / 60 : ℚ) ≤ fdSmall.jam_density ∧
    fdSmall.capacity_density ≤ 203 / 60 ∧
    fdSmall.get_state (203 / 60) = .ok ⟨203 / 60, 397 / 120000⟩ ∧
    float_isclose (fdSmall.get_state_by_flow (397 / 120000) false).density (203 / 60) = false := by
  refine ⟨?_, by norm_num, ?_, ?_, ?_, ?_⟩
  · norm_num [FundamentalDiagram.Valid, fdSmall]
  · norm_num [fdSmall]
  · norm_num [FundamentalDiagram.capacity_density, fdSmall]
  · norm_num [fdSmall, FundamentalDiagram.get_state, FundamentalDiagram.func,
      FundamentalDiagram.capacity, FundamentalDiagram.capacity_density]
  · norm_num [fdSmall, FundamentalDiagram.get_state_by_flow, FundamentalDiagram.get_max_state,
      FundamentalDiagram.capacity, FundamentalDiagram.capacity_density,
      float_isclose, qabs, qmax, ABS_TOL, REL_TOL]

/-- PLOT_THRESHOLD_OFFSET of drawer_utils.py. -/
def PLOT_THRESHOLD_OFFSET : ℚ := 1

/-- Interface of drawer_utils.py: a line of the dt-plane given by a point and
a slope, two endpoint bounds, the above/below states, and the user flag of the
UserInterface subtype.  An upper bound of none encodes the default unbounded
endpoint at infinite time. -/
structure Interface where
  point : dtPoint
  slope : ℚ
  above : Option State
  below : Option State
  lower : dtPoint
  upper : Option dtPoint
  is_user : Bool
deriving DecidableEq, Repr

/-- Interface constructor: when no lower bound is given, the default lower
bound sits on the line at time -PLOT_THRESHOLD_OFFSET; when no upper bound is
given the interface is unbounded above. -/
def Interface.make (point : dtPoint) (slope : ℚ) (above below : Option State)
    (lower_bound upper_bound : Option dtPoint) : Interface :=
  { point := point, slope := slope, above := above, below := below,
    lower := lower_bound.getD ⟨-PLOT_THRESHOLD_OFFSET,
      point.position - slope * point.time - PLOT_THRESHOLD_OFFSET * slope⟩,
    upper := upper_bound, is_user := false }

/-- has_endpoint: whether the given point tolerantly equals one of the two
bounds; the unbounded upper endpoint never matches a finite point. -/
def Interface.has_endpoint (i : Interface) (p : dtPoint) : Bool :=
  dtPoint.eqv i.lower p ||
    (match i.upper with
     | some u => dtPoint.eqv u p
     | none => false)

/-- get_pos_at_time: position of the line at the given time when the time lies
within the bounds, none otherwise. -/
def Interface.get_pos_at_time (i : Interface) (t : ℚ) : Option ℚ :=
  if (match i.upper with
      | some u => decide (u.time < t)
      | none => false) || decide (i.lower.time > t) then none
  else some (i.point.position + i.slope * (t - i.point.time))

/-- get_slope of Interface: the slope between the two endpoints,
AttributeError when the interface is unbounded above. -/
def Interface.get_slope (i : Interface) : Except Err ℚ :=
  match i.upper with
  | none => .error .noEndpoints
  | some u => dtPoint.get_slope i.lower u

/-- set_above_state: sets the above state, asserting equality when already
set. -/
def Interface.set_above_state (i : Interface) (s : State) : Except Err Interface :=
  match i.above with
  | some a => if State.eqv a s then .ok i else .error .aboveStateMismatch
  | none => .ok { i with above := some s }

/-- set_below_state: sets the below state, asserting equality when already
set. -/
def Interface.set_below_state (i : Interface) (s : State) : Except Err Interface :=
  match i.below with
  | some b => if State.eqv b s then .ok i else .error .belowStateMismatch
  | none => .ok { i with below := some s }

/-- intersection_time: the time coordinate of the point-slope intersection
formula of Interface.intersection. -/
def Interface.intersection_time (i other : Interface) : ℚ :=
  (other.point.position - other.slope * other.point.time - i.point.position +
    i.slope * i.point.time) / (i.slope - other.slope)

/-- intersection of two interfaces: none for tolerantly parallel slopes or an
intersection time outside either bound; the two computed positions are tested
for Python truthiness, so a position of exactly 0 also yields none; the final
assert compares the two positions tolerantly. -/
def Interface.intersection (i other : Interface) : Except Err (Option dtPoint) :=
  if float_isclose i.slope other.slope then .ok none
  else
    match i.get_pos_at_time (i.intersection_time other),
        other.get_pos_at_time (i.intersection_time other) with
    | some p1, some p2 =>
      if p1 = 0 ∨ p2 = 0 then .ok none
      else if float_isclose p1 p2 then .ok (some ⟨i.intersection_time other, p1⟩)
      else .error .intersectionAssert
    | _, _ => .ok none

theorem get_pos_at_time_some {i : Interface} {t v : ℚ} (h : i.get_pos_at_time t = some v) :
    v = i.point.position + i.slope * (t - i.point.time) := by
  rw [Interface.get_pos_at_time] at h
  split at h
  · exact absurd h (by simp)
  · exact (Option.some.inj h).symm

theorem intersection_time_symm {a b : Interface} (h : a.slope ≠ b.slope) :
    b.intersection_time a = a.intersection_time b := by
  unfold Interface.intersection_time
  rw [div_eq_div_iff (sub_ne_zero_of_ne (Ne.symm h)) (sub_ne_zero_of_ne h)]
  ring

theorem intersection_positions_agree {a b : Interface} (h : a.slope ≠ b.slope) :
    a.point.position + a.slope * (a.intersection_time b - a.point.time) =
      b.point.position + b.slope * (a.intersection_time b - b.point.time) := by
  unfold Interface.intersection_time
  field_simp [sub_ne_zero_of_ne h]
  ring

/-- C9: intersection is symmetric for interfaces with tolerantly distinct
slopes: both directions return none, or both return points that are tolerantly
equal (the computed times agree exactly and the positions agree exactly). -/
theorem intersection_symmetric (a b : Interface)
    (h : float_isclose a.slope b.slope = false) :
    (a.intersection b = .ok none ∧ b.intersection a = .ok none) ∨
    (∃ p q, a.intersection b = .ok (some p) ∧ b.intersection a = .ok (some q) ∧
      dtPoint.eqv p q = true) := by
  have hba : float_isclose b.slope a.slope = false := (float_isclose_symm b.slope a.slope).trans h
  have hne : a.slope ≠ b.slope := ne_of_not_isclose h
  have ht := intersection_time_symm hne
  have hpos := intersection_positions_agree hne
  rcases hga : a.get_pos_at_time (a.intersection_time b) with _ | p1
  · left
    constructor
    · rw [Interface.intersection]
      simp only [h, Bool.false_eq_true, if_false, hga]
    · rw [Interface.intersection]
      simp only [hba, Bool.false_eq_true, if_false, ht, hga]
      cases b.get_pos_at_time (a.intersection_time b) <;> rfl
  · rcases hgb : b.get_pos_at_time (a.intersection_time b) with _ | p2
    · left
      constructor
      · rw [Interface.intersection]
        simp only [h, Bool.false_eq_true, if_false, hga, hgb]
      · rw [Interface.intersection]
        simp only [hba, Bool.false_eq_true, if_false, ht, hgb]
    · have hp1 := get_pos_at_time_some hga
      have hp2 := get_pos_at_time_some hgb
      have hp12 : p1 = p2 := by rw [hp1, hp2, hpos]
      subst hp12
      by_cases hz : p1 = 0
      · left
        constructor
        · rw [Interface.intersection]
          simp only [h, Bool.false_eq_true, if_false, hga, hgb]
          rw [if_pos (Or.inl hz)]
        · rw [Interface.intersection]
          simp only [hba, Bool.false_eq_true, if_false, ht, hga, hgb]
          rw [if_pos (Or.inl hz)]
      · right
        refine ⟨⟨a.intersection_time b, p1⟩, ⟨a.intersection_time b, p1⟩, ?_, ?_,
          dtPoint_eqv_refl _⟩
        · rw [Interface.intersection]
          simp only [h, Bool.false_eq_true, if_false, hga, hgb]
          rw [if_neg (by simp [hz]), if_pos (float_isclose_refl p1)]
        · rw [Interface.intersection]
          simp only [hba, Bool.false_eq_true, if_false, ht, hga, hgb]
          rw [if_neg (by simp [hz]), if_pos (float_isclose_refl p1)]

/-- Concrete interface of slope 1 through (0, 0). -/
def iW1 : Interface := ⟨⟨0, 0⟩, 1, none, none, ⟨-1, -1⟩, none, false⟩

/-- Concrete interface of slope -1 through (0, 2). -/
def iW2 : Interface := ⟨⟨0, 2⟩, -1, none, none, ⟨-1, 3⟩, none, false⟩

/-- C9 (witness): the symmetry theorem applied to two concrete non-parallel
interfaces crossing at (1, 1). -/
theorem intersection_symmetric_witness :
    float_isclose iW1.slope iW2.slope = false ∧
    ((iW1.intersection iW2 = .ok none ∧ iW2.intersection iW1 = .ok none) ∨
     (∃ p q, iW1.intersection iW2 = .ok (some p) ∧ iW2.intersection iW1 = .ok (some q) ∧
       dtPoint.eqv p q = true)) := by
  have hs : float_isclose iW1.slope iW2.slope = false := by
    norm_num [iW1, iW2, float_isclose, qabs, qmax, ABS_TOL, REL_TOL]
  exact ⟨hs, intersection_symmetric iW1 iW2 hs⟩

/-- Event points that _add_interface would schedule for a new interface: the
intersections against each existing interface, skipping none results and
points that are already endpoints of the new interface (both the truncation
route and the intersection route key their events by exactly these points). -/
def add_interface_event_points (existing : List Interface) (new : Interface) : List dtPoint :=
  existing.filterMap fun x =>
    match new.intersection x with
    | .ok (some pt) => if new.has_endpoint pt then none else some pt
    | _ => none

/-- C10: when two interfaces have tolerantly distinct slopes and the computed
intersection time lies within both bounds, but either line passes through
position exactly 0 there, intersection still returns none (the positions are
tested for Python truthiness), and registering the new interface schedules no
event at the crossing. -/
theorem intersection_zero_position (a b : Interface)
    (h : float_isclose a.slope b.slope = false)
    (ha : a.get_pos_at_time (a.intersection_time b) ≠ none)
    (hb : b.get_pos_at_time (a.intersection_time b) ≠ none)
    (hz : a.get_pos_at_time (a.intersection_time b) = some 0 ∨
      b.get_pos_at_time (a.intersection_time b) = some 0) :
    a.intersection b = .ok none ∧ add_interface_event_points [b] a = [] := by
  have hmain : a.intersection b = .ok none := by
    rcases hga : a.get_pos_at_time (a.intersection_time b) with _ | p1
    · exact absurd hga ha
    rcases hgb : b.get_pos_at_time (a.intersection_time b) with _ | p2
    · exact absurd hgb hb
    have hz2 : p1 = 0 ∨ p2 = 0 := by
      rcases hz with hz | hz
      · exact Or.inl (Option.some.inj (hga.symm.trans hz))
      · exact Or.inr (Option.some.inj (hgb.symm.trans hz))
    rw [Interface.intersection]
    simp only [h, Bool.false_eq_true, if_false, hga, hgb]
    rw [if_pos hz2]
  refine ⟨hmain, ?_⟩
  simp [add_interface_event_points, hmain]

/-- Concrete interface of slope 1 through (0, -1): crosses position 0 at
time 1. -/
def iZ1 : Interface := ⟨⟨0, -1⟩, 1, none, none, ⟨-1, -2⟩, none, false⟩

/-- Concrete interface of slope -1 through (0, 1): crosses position 0 at
time 1. -/
def iZ2 : Interface := ⟨⟨0, 1⟩, -1, none, none, ⟨-1, 2⟩, none, false⟩

/-- C10 (witness): the two concrete interfaces genuinely cross at (1, 0), in
bounds and non-parallel, yet intersection reports none and no event point is
generated. -/
theorem intersection_zero_position_witness :
    iZ1.intersection iZ2 = .ok none ∧ add_interface_event_points [iZ2] iZ1 = [] := by
  refine intersection_zero_position iZ1 iZ2 ?_ ?_ ?_ ?_
  · norm_num [iZ1, iZ2, float_isclose, qabs, qmax, ABS_TOL, REL_TOL]
  · norm_num [iZ1, iZ2, Interface.get_pos_at_time, Interface.intersection_time]
    exact fun hh => Option.noConfusion hh
  · norm_num [iZ1, iZ2, Interface.get_pos_at_time, Interface.intersection_time]
    exact fun hh => Option.noConfusion hh
  · left
    norm_num [iZ1, iZ2, Interface.get_pos_at_time, Interface.intersection_time]

/-- First step of add_cutoff: a supplied point that is already an endpoint of
the interface is dropped (set to None). -/
def filtered_cut (i : Interface) (p0 : Option dtPoint) : Option dtPoint :=
  match p0 with
  | some p => if i.has_endpoint p then none else some p
  | none => none

/-- Validity check of add_cutoff for one surviving cut point: the slope from
the interface reference point to it must exist and tolerantly equal the
interface slope; the two raise sites use distinct errors. -/
def cut_valid (i : Interface) (p : Option dtPoint) (e : Err) : Except Err Unit :=
  match p with
  | none => .ok ()
  | some q =>
    match dtPoint.get_slope i.point q with
    | .error err => .error err
    | .ok s => if float_isclose i.slope s then .ok () else .error e

/-- Mutation step of add_cutoff: move the reference point onto the cut and
tighten whichever bounds the surviving cut points improve. -/
def apply_cuts (i : Interface) (lower upper : Option dtPoint) : Interface :=
  { i with
    point :=
      (match lower with
       | none =>
         (match upper with
          | some u => u
          | none => i.point)
       | some l => l),
    lower :=
      (match lower with
       | some l => if i.lower.time < l.time then l else i.lower
       | none => i.lower),
    upper :=
      (match upper with
       | some u =>
         (match i.upper with
          | some old => if old.time > u.time then some u else some old
          | none => some u)
       | none => i.upper) }

/-- Orientation check of add_cutoff: true exactly when both cut points
survive and the lower is not strictly earlier in time than the upper. -/
def cuts_misordered (lower upper : Option dtPoint) : Bool :=
  match lower, upper with
  | some l, some u => decide (¬ l.time < u.time)
  | _, _ => false

theorem cuts_misordered_some (l u : dtPoint) :
    cuts_misordered (some l) (some u) = decide (¬ l.time < u.time) := rfl

/-- add_cutoff of drawer_utils.py: drop endpoint-equal arguments, validate the
survivors against the line, check the relative orientation, then return the
interface unchanged when nothing survived, else tighten. -/
def Interface.add_cutoff (i : Interface) (lower0 upper0 : Option dtPoint) :
    Except Err Interface :=
  let lower := filtered_cut i lower0
  let upper := filtered_cut i upper0
  match cut_valid i lower Err.lowerBoundInvalid with
  | .error e => .error e
  | .ok _ =>
    match cut_valid i upper Err.upperBoundInvalid with
    | .error e => .error e
    | .ok _ =>
      if cuts_misordered lower upper then .error .boundsMisordered
      else if lower.isNone && upper.isNone then .ok i
      else .ok (apply_cuts i lower upper)

/-- Predicate: the supplied point fails the collinearity test of add_cutoff,
either because the slope through it is undefined (times tolerantly equal) or
because that slope is not tolerantly equal to the interface slope. -/
def off_line (i : Interface) (p : dtPoint) : Prop :=
  float_isclose i.point.time p.time = true ∨
    (∃ s, dtPoint.get_slope i.point p = .ok s ∧ float_isclose i.slope s = false)

/-- Ordering on optional upper bounds where none encodes infinite time. -/
def upper_le (newu oldu : Option dtPoint) : Prop :=
  ∀ v, oldu = some v → ∃ w, newu = some w ∧ w.time ≤ v.time

theorem cut_valid_error_of_off_line (i : Interface) (q : dtPoint) (e : Err)
    (h : off_line i q) : ∃ e2, cut_valid i (some q) e = .error e2 := by
  rcases h with h | ⟨s, hs, hcl⟩
  · refine ⟨.sharedTime, ?_⟩
    have hg : dtPoint.get_slope i.point q = .error .sharedTime := by
      unfold dtPoint.get_slope
      rw [if_pos h]
    have hm : cut_valid i (some q) e =
        (match dtPoint.get_slope i.point q with
         | .error err => .error err
         | .ok s => if float_isclose i.slope s then .ok () else .error e) := rfl
    rw [hm, hg]
  · refine ⟨e, ?_⟩
    have hm : cut_valid i (some q) e =
        (match dtPoint.get_slope i.point q with
         | .error err => .error err
         | .ok s2 => if float_isclose i.slope s2 then .ok () else .error e) := rfl
    rw [hm, hs]
    simp only [hcl, Bool.false_eq_true, if_false]

theorem cut_valid_ok_of_on_line (i : Interface) (q : dtPoint) (e : Err)
    (h : ¬ off_line i q) : cut_valid i (some q) e = .ok () := by
  rw [off_line, not_or] at h
  obtain ⟨h1, h2⟩ := h
  have h1b : float_isclose i.point.time q.time = false := by
    cases hc : float_isclose i.point.time q.time
    · rfl
    · exact absurd hc h1
  have hg : dtPoint.get_slope i.point q =
      .ok ((i.point.position - q.position) / (i.point.time - q.time)) := by
    unfold dtPoint.get_slope
    rw [if_neg (by simp [h1b])]
  push_neg at h2
  have hcl := h2 ((i.point.position - q.position) / (i.point.time - q.time)) hg
  have hclb : float_isclose i.slope
      ((i.point.position - q.position) / (i.point.time - q.time)) = true := by
    cases hc : float_isclose i.slope ((i.point.position - q.position) / (i.point.time - q.time))
    · exact absurd hc hcl
    · rfl
  have hm : cut_valid i (some q) e =
      (match dtPoint.get_slope i.point q with
       | .error err => .error err
       | .ok s => if float_isclose i.slope s then .ok () else .error e) := rfl
  rw [hm, hg]
  show (if float_isclose i.slope ((i.point.position - q.position) / (i.point.time - q.time)) = true
      then (Except.ok () : Except Err Unit) else .error e) = .ok ()
  rw [if_pos hclb]

theorem apply_cuts_lower_none (i : Interface) (up : Option dtPoint) :
    (apply_cuts i none up).lower = i.lower := rfl

theorem apply_cuts_upper_none (i : Interface) (lo : Option dtPoint) :
    (apply_cuts i lo none).upper = i.upper := by
  rcases lo with _ | l <;> rfl

theorem apply_cuts_lower_mono (i : Interface) (lo up : Option dtPoint) :
    i.lower.time ≤ (apply_cuts i lo up).lower.time := by
  rcases lo with _ | l
  · exact le_refl _
  · show i.lower.time ≤ (if i.lower.time < l.time then l else i.lower).time
    split
    · exact le_of_lt (by assumption)
    · exact le_refl _

theorem apply_cuts_upper_mono (i : Interface) (lo up : Option dtPoint) :
    upper_le (apply_cuts i lo up).upper i.upper := by
  intro v hv
  rcases up with _ | u
  · refine ⟨v, ?_, le_refl _⟩
    rw [apply_cuts_upper_none, hv]
  · have hru : (apply_cuts i lo (some u)).upper =
        (match i.upper with
         | some old => if old.time > u.time then some u else some old
         | none => some u) := by
      rcases lo with _ | l <;> rfl
    rw [hru, hv]
    have hm : (match (some v : Option dtPoint) with
        | some old => if old.time > u.time then some u else some old
        | none => some u) = if v.time > u.time then some u else some v := rfl
    rw [hm]
    by_cases hgt : v.time > u.time
    · rw [if_pos hgt]
      exact ⟨u, rfl, le_of_lt hgt⟩
    · rw [if_neg hgt]
      exact ⟨v, rfl, le_refl _⟩

/-- C6 (amended): add_cutoff only ever tightens bounds and shrinks at most one
bound per supplied argument, so a call supplying only a lower (resp. upper)
point leaves the upper (resp. lower) bound unchanged, while a call supplying
both may shrink both bounds in the same call.  An exception is raised whenever
a supplied point that is not tolerantly equal to an existing endpoint fails
the collinearity test of the source (slope through it undefined or not
tolerantly equal to the interface slope), and whenever both supplied points
survive endpoint filtering, pass collinearity, and the lower is not strictly
earlier in time than the upper. -/
theorem add_cutoff_amended (i : Interface) (lower0 upper0 : Option dtPoint) :
    (∀ j, i.add_cutoff lower0 upper0 = .ok j →
      i.lower.time ≤ j.lower.time ∧ upper_le j.upper i.upper) ∧
    (lower0 = none → ∀ j, i.add_cutoff lower0 upper0 = .ok j → j.lower = i.lower) ∧
    (upper0 = none → ∀ j, i.add_cutoff lower0 upper0 = .ok j → j.upper = i.upper) ∧
    (∀ l, lower0 = some l → i.has_endpoint l = false → off_line i l →
      ∃ e, i.add_cutoff lower0 upper0 = .error e) ∧
    (∀ u, upper0 = some u → i.has_endpoint u = false → off_line i u →
      ∃ e, i.add_cutoff lower0 upper0 = .error e) ∧
    (∀ l u, lower0 = some l → upper0 = some u → i.has_endpoint l = false →
      i.has_endpoint u = false → ¬ off_line i l → ¬ off_line i u →
      ¬ l.time < u.time → i.add_cutoff lower0 upper0 = .error .boundsMisordered) := by
  refine ⟨?_, ?_, ?_, ?_, ?_, ?_⟩
  · intro j h
    simp only [Interface.add_cutoff] at h
    cases hcv1 : cut_valid i (filtered_cut i lower0) Err.lowerBoundInvalid with
    | error e =>
      simp only [hcv1] at h
      exact Except.noConfusion h
    | ok u1 =>
      cases hcv2 : cut_valid i (filtered_cut i upper0) Err.upperBoundInvalid with
      | error e =>
        simp only [hcv1, hcv2] at h
        exact Except.noConfusion h
      | ok u2 =>
        cases hlo : filtered_cut i lower0 with
        | none =>
          cases hup : filtered_cut i upper0 with
          | none =>
            rw [hlo] at hcv1
            rw [hup] at hcv2
            simp only [hcv1, hcv2, hlo, hup, cuts_misordered, Option.isNone_none,
              Bool.and_self, Bool.false_eq_true, if_false, if_true] at h
            obtain rfl := Except.ok.inj h
            exact ⟨le_refl _, fun v hv => ⟨v, hv, le_refl _⟩⟩
          | some pu =>
            rw [hlo] at hcv1
            rw [hup] at hcv2
            simp only [hcv1, hcv2, hlo, hup, cuts_misordered, Option.isNone_none,
              Option.isNone_some, Bool.and_false, Bool.false_eq_true, if_false] at h
            obtain rfl := Except.ok.inj h
            exact ⟨apply_cuts_lower_mono i none (some pu),
              apply_cuts_upper_mono i none (some pu)⟩
        | some pl =>
          cases hup : filtered_cut i upper0 with
          | none =>
            rw [hlo] at hcv1
            rw [hup] at hcv2
            simp only [hcv1, hcv2, hlo, hup, cuts_misordered, Option.isNone_none,
              Option.isNone_some, Bool.false_and, Bool.false_eq_true, if_false] at h
            obtain rfl := Except.ok.inj h
            exact ⟨apply_cuts_lower_mono i (some pl) none,
              apply_cuts_upper_mono i (some pl) none⟩
          | some pu =>
            rw [hlo] at hcv1
            rw [hup] at hcv2
            by_cases ht : pl.time < pu.time
            · simp only [hcv1, hcv2, hlo, hup, cuts_misordered_some,
                decide_eq_false (not_not_intro ht), Option.isNone_some, Bool.false_and,
                Bool.false_eq_true, if_false] at h
              obtain rfl := Except.ok.inj h
              exact ⟨apply_cuts_lower_mono i (some pl) (some pu),
                apply_cuts_upper_mono i (some pl) (some pu)⟩
            · simp only [hcv1, hcv2, hlo, hup, cuts_misordered_some,
                decide_eq_true ht, if_true] at h
              exact Except.noConfusion h
  · intro h0 j h
    subst h0
    simp only [Interface.add_cutoff] at h
    have hlo : filtered_cut i none = none := rfl
    cases hcv2 : cut_valid i (filtered_cut i upper0) Err.upperBoundInvalid with
    | error e =>
      simp only [hlo, hcv2] at h
      exact Except.noConfusion h
    | ok u2 =>
      cases hup : filtered_cut i upper0 with
      | none =>
        rw [hup] at hcv2
        simp only [hlo, hcv2, hup, cuts_misordered, Option.isNone_none, Bool.and_self,
          Bool.false_eq_true, if_false, if_true] at h
        obtain rfl := Except.ok.inj h
        rfl
      | some pu =>
        rw [hup] at hcv2
        simp only [hlo, hcv2, hup, cuts_misordered, Option.isNone_none, Option.isNone_some,
          Bool.and_false, Bool.false_eq_true, if_false] at h
        obtain rfl := Except.ok.inj h
        exact apply_cuts_lower_none i (some pu)
  · intro h0 j h
    subst h0
    simp only [Interface.add_cutoff] at h
    have hup : filtered_cut i none = none := rfl
    cases hcv1 : cut_valid i (filtered_cut i lower0) Err.lowerBoundInvalid with
    | error e =>
      simp only [hcv1] at h
      exact Except.noConfusion h
    | ok u1 =>
      cases hlo : filtered_cut i lower0 with
      | none =>
        rw [hlo] at hcv1
        simp only [hcv1, hlo, hup, cuts_misordered, Option.isNone_none, Bool.and_self,
          Bool.false_eq_true, if_false, if_true] at h
        obtain rfl := Except.ok.inj h
        rfl
      | some pl =>
        rw [hlo] at hcv1
        simp only [hcv1, hlo, hup, cuts_misordered, Option.isNone_none, Option.isNone_some,
          Bool.false_and, Bool.false_eq_true, if_false] at h
        obtain rfl := Except.ok.inj h
        exact apply_cuts_upper_none i (some pl)
  · intro l h0 hep hoff
    subst h0
    have hflc : filtered_cut i (some l) = some l := by
      simp [filtered_cut, hep]
    obtain ⟨e2, hcv⟩ := cut_valid_error_of_off_line i l Err.lowerBoundInvalid hoff
    refine ⟨e2, ?_⟩
    simp only [Interface.add_cutoff, hflc, hcv]
  · intro u h0 hep hoff
    subst h0
    have hflc : filtered_cut i (some u) = some u := by
      simp [filtered_cut, hep]
    obtain ⟨e2, hcv⟩ := cut_valid_error_of_off_line i u Err.upperBoundInvalid hoff
    cases hcv1 : cut_valid i (filtered_cut i lower0) Err.lowerBoundInvalid with
    | error e =>
      refine ⟨e, ?_⟩
      simp only [Interface.add_cutoff, hcv1]
    | ok u1 =>
      refine ⟨e2, ?_⟩
      simp only [Interface.add_cutoff, hcv1, hflc, hcv]
  · intro l u h0l h0u hepl hepu honl honu ht
    subst h0l
    subst h0u
    have hflcl : filtered_cut i (some l) = some l := by
      simp [filtered_cut, hepl]
    have hflcu : filtered_cut i (some u) = some u := by
      simp [filtered_cut, hepu]
    have hcv1 := cut_valid_ok_of_on_line i l Err.lowerBoundInvalid honl
    have hcv2 := cut_valid_ok_of_on_line i u Err.upperBoundInvalid honu
    simp only [Interface.add_cutoff, hflcl, hflcu, hcv1, hcv2, cuts_misordered_some,
      decide_eq_true ht, if_true]

/-- Concrete horizontal interface through the origin with default-style
bounds, used by the C6 counterexample and witness. -/
def iCutA : Interface := ⟨⟨0, 0⟩, 0, none, none, ⟨-1, 0⟩, none, false⟩

/-- Concrete horizontal interface whose lower endpoint sits at time 1/2,
used by the second half of the C6 counterexample. -/
def iCutB : Interface := ⟨⟨0, 0⟩, 0, none, none, ⟨1 / 2, 0⟩, some ⟨10, 0⟩, false⟩

/-- Concrete point tolerantly equal to the lower endpoint of iCutB but off
its line. -/
def pCutB : dtPoint := ⟨1 / 2, 9 / 100000⟩

/-- C6 (counterexample): a single call to add_cutoff supplying both a lower
and an upper point shrinks both bounds (the lower bound moves from time -1 to
time 1 and the unbounded upper bound becomes time 2); and a supplied point
that is off the interface line but tolerantly equal to an existing endpoint
is silently dropped instead of raising. -/
theorem add_cutoff_counterexample :
    (iCutA.add_cutoff (some ⟨1, 0⟩) (some ⟨2, 0⟩) =
        .ok ⟨⟨1, 0⟩, 0, none, none, ⟨1, 0⟩, some ⟨2, 0⟩, false⟩ ∧
      iCutA.lower ≠ (⟨1, 0⟩ : dtPoint) ∧ iCutA.upper ≠ some ⟨2, 0⟩) ∧
    (iCutB.has_endpoint pCutB = true ∧
      off_line iCutB pCutB ∧
      iCutB.add_cutoff (some pCutB) none = .ok iCutB) := by
  have hepA1 : iCutA.has_endpoint ⟨1, 0⟩ = false := by
    norm_num [iCutA, Interface.has_endpoint, dtPoint.eqv, float_isclose, qabs, qmax,
      ABS_TOL, REL_TOL]
  have hepA2 : iCutA.has_endpoint ⟨2, 0⟩ = false := by
    norm_num [iCutA, Interface.has_endpoint, dtPoint.eqv, float_isclose, qabs, qmax,
      ABS_TOL, REL_TOL]
  have hfA1 : filtered_cut iCutA (some ⟨1, 0⟩) = some ⟨1, 0⟩ := by
    simp [filtered_cut, hepA1]
  have hfA2 : filtered_cut iCutA (some ⟨2, 0⟩) = some ⟨2, 0⟩ := by
    simp [filtered_cut, hepA2]
  have hgsA1 : dtPoint.get_slope iCutA.point ⟨1, 0⟩ = .ok 0 := by
    norm_num [iCutA, dtPoint.get_slope, float_isclose, qabs, qmax, ABS_TOL, REL_TOL]
  have hgsA2 : dtPoint.get_slope iCutA.point ⟨2, 0⟩ = .ok 0 := by
    norm_num [iCutA, dtPoint.get_slope, float_isclose, qabs, qmax, ABS_TOL, REL_TOL]
  have hcvA1 : cut_valid iCutA (some ⟨1, 0⟩) Err.lowerBoundInvalid = .ok () := by
    have hm : cut_valid iCutA (some ⟨1, 0⟩) Err.lowerBoundInvalid =
        (match dtPoint.get_slope iCutA.point ⟨1, 0⟩ with
         | .error err => .error err
         | .ok s => if float_isclose iCutA.slope s then .ok ()
           else .error Err.lowerBoundInvalid) := rfl
    rw [hm, hgsA1]
    simp [iCutA, float_isclose_refl]
  have hcvA2 : cut_valid iCutA (some ⟨2, 0⟩) Err.upperBoundInvalid = .ok () := by
    have hm : cut_valid iCutA (some ⟨2, 0⟩) Err.upperBoundInvalid =
        (match dtPoint.get_slope iCutA.point ⟨2, 0⟩ with
         | .error err => .error err
         | .ok s => if float_isclose iCutA.slope s then .ok ()
           else .error Err.upperBoundInvalid) := rfl
    rw [hm, hgsA2]
    simp [iCutA, float_isclose_refl]
  have hepB : iCutB.has_endpoint pCutB = true := by
    norm_num [iCutB, pCutB, Interface.has_endpoint, dtPoint.eqv, float_isclose, qabs, qmax,
      ABS_TOL, REL_TOL]
  have hfB : filtered_cut iCutB (some pCutB) = none := by
    simp [filtered_cut, hepB]
  refine ⟨⟨?_, ?_, ?_⟩, hepB, ?_, ?_⟩
  · simp only [Interface.add_cutoff, hfA1, hfA2, hcvA1, hcvA2, cuts_misordered_some]
    rw [if_neg (by norm_num), if_neg (by simp)]
    simp only [apply_cuts, iCutA]
    norm_num
  · norm_num [iCutA]
  · exact fun hh => Option.noConfusion hh
  · refine Or.inr ⟨9 / 50000, ?_, ?_⟩
    · norm_num [iCutB, pCutB, dtPoint.get_slope, float_isclose, qabs, qmax, ABS_TOL, REL_TOL]
    · norm_num [iCutB, float_isclose, qabs, qmax, ABS_TOL, REL_TOL]
  · simp only [Interface.add_cutoff, hfB]
    rfl

/-- C6 (witness): the amended theorem applied to a concrete off-line lower
point that is no endpoint of the interface: the call raises. -/
theorem add_cutoff_amended_witness :
    ∃ e, iCutA.add_cutoff (some ⟨1, 5⟩) none = .error e := by
  refine (add_cutoff_amended iCutA (some ⟨1, 5⟩) none).2.2.2.1 ⟨1, 5⟩ rfl ?_ ?_
  · norm_num [iCutA, Interface.has_endpoint, dtPoint.eqv, float_isclose, qabs, qmax,
      ABS_TOL, REL_TOL]
  · refine Or.inr ⟨5, ?_, ?_⟩
    · norm_num [iCutA, dtPoint.get_slope, float_isclose, qabs, qmax, ABS_TOL, REL_TOL]
    · norm_num [iCutA, float_isclose, qabs, qmax, ABS_TOL, REL_TOL]

/-- EPS of shockwave_drawer.py (1e-2), the query-time offset used by
resolve_state to break ties at interface endpoints. -/
def EPS_DRAWER : ℚ := 1 / 100

/-- Accumulator of the resolve_state scan: the best interface found so far and
its distance, none encoding the initial infinity. -/
structure ResolveAcc where
  res : Option Interface
  min_dist : Option ℚ
deriving DecidableEq, Repr

/-- One iteration of the resolve_state loop: skip unresolved-above interfaces
(asserting they are user generated), skip interfaces undefined at the offset
query time or tolerantly level with the query, tie-break equidistant
candidates by slope, otherwise keep the nearest interface on the requested
side. -/
def resolve_step (point : dtPoint) (below : Bool) (acc : ResolveAcc) (i : Interface) :
    Except Err ResolveAcc :=
  let scale : ℚ := if below then 1 else -1
  match i.above with
  | none => if i.is_user then .ok acc else .error .unresolvedNonUserInterface
  | some _ =>
    match i.get_pos_at_time (point.time + EPS_DRAWER) with
    | none => .ok acc
    | some cur =>
      if float_isclose point.position cur then .ok acc
      else
        match acc.res, acc.min_dist with
        | some r, some m =>
          if float_isclose (scale * (point.position - cur)) m then
            if (below && decide (i.slope > r.slope)) || (!below && decide (i.slope < r.slope))
            then .ok ⟨some i, some m⟩
            else .ok acc
          else if decide (scale * (point.position - cur) ≥ 0) &&
              decide (scale * (point.position - cur) < m) then
            .ok ⟨some i, some (scale * (point.position - cur))⟩
          else .ok acc
        | _, _ =>
          if decide (scale * (point.position - cur) ≥ 0) then
            .ok ⟨some i, some (scale * (point.position - cur))⟩
          else .ok acc

/-- The scan of resolve_state over the interface list, in order. -/
def resolve_loop (point : dtPoint) (below : Bool) :
    List Interface → ResolveAcc → Except Err ResolveAcc
  | [], acc => .ok acc
  | i :: rest, acc =>
    match resolve_step point below acc i with
    | .error e => .error e
    | .ok acc2 => resolve_loop point below rest acc2

/-- resolve_state of ShockwaveDrawer: scan all interfaces for the nearest one
on the requested side of the query point and return its above state (below
query) or below state (above query); the default state when none is found;
the final assert demands both states of the selected interface. -/
def resolve_state (interfaces : List Interface) (default_state : State) (point : dtPoint)
    (below : Bool) : Except Err State :=
  match resolve_loop point below interfaces ⟨none, none⟩ with
  | .error e => .error e
  | .ok acc =>
    match acc.res with
    | some r =>
      match r.above, r.below with
      | some ra, some rb => if below then .ok ra else .ok rb
      | _, _ => .error .resolvedInterfaceMissingState
    | none => .ok default_state

theorem resolve_step_above_none {i : Interface} (point : dtPoint) (below : Bool)
    (acc : ResolveAcc) (h : i.above = none) (hu : i.is_user = true) :
    resolve_step point below acc i = .ok acc := by
  simp only [resolve_step, h, hu, if_true]

theorem resolve_step_pos_none {i : Interface} {s : State} (point : dtPoint) (below : Bool)
    (acc : ResolveAcc) (ha : i.above = some s)
    (hg : i.get_pos_at_time (point.time + EPS_DRAWER) = none) :
    resolve_step point below acc i = .ok acc := by
  simp only [resolve_step, ha, hg]

theorem resolve_step_level {i : Interface} {s : State} {cur : ℚ} (point : dtPoint)
    (below : Bool) (acc : ResolveAcc) (ha : i.above = some s)
    (hg : i.get_pos_at_time (point.time + EPS_DRAWER) = some cur)
    (hic : float_isclose point.position cur = true) :
    resolve_step point below acc i = .ok acc := by
  simp only [resolve_step, ha, hg, hic, if_true]

theorem resolve_step_wrong_side {i : Interface} {s : State} {cur : ℚ} (point : dtPoint)
    (below : Bool) (ha : i.above = some s)
    (hg : i.get_pos_at_time (point.time + EPS_DRAWER) = some cur)
    (hic : float_isclose point.position cur = false)
    (hlt : (if below then (1 : ℚ) else -1) * (point.position - cur) < 0) :
    resolve_step point below ⟨none, none⟩ i = .ok ⟨none, none⟩ := by
  simp only [resolve_step, ha, hg, hic, Bool.false_eq_true, if_false,
    decide_eq_false (not_le.mpr hlt)]

/-- An interface that contributes nothing to the resolve_state scan at a
query: unresolved above state (skipped), undefined at the offset query time,
tolerantly level with the query, or strictly on the wrong side of it. -/
def resolve_noncandidate (i : Interface) (point : dtPoint) (below : Bool) : Prop :=
  i.above = none ∨
  i.get_pos_at_time (point.time + EPS_DRAWER) = none ∨
  (∃ cur, i.get_pos_at_time (point.time + EPS_DRAWER) = some cur ∧
    (float_isclose point.position cur = true ∨
      (if below then (1 : ℚ) else -1) * (point.position - cur) < 0))

/-- C5 (amended): resolve_state skips exactly the interfaces whose above state
is unresolved (asserting each such interface is user generated); an interface
with the above state set and the below state unset is considered, not
excluded.  Whenever every interface is skipped or is undefined at the offset
query time, tolerantly level with the query, or on the wrong side of it, the
scenario default state is returned; in particular an engine whose interface
list is empty or contains only unresolved user interfaces resolves to the
initial state at every query point and side. -/
theorem resolve_state_default (interfaces : List Interface) (ds : State) (point : dtPoint)
    (below : Bool)
    (hassert : ∀ i ∈ interfaces, i.above = none → i.is_user = true)
    (hnone : ∀ i ∈ interfaces, resolve_noncandidate i point below) :
    resolve_state interfaces ds point below = .ok ds := by
  have hloop : ∀ l : List Interface, (∀ i ∈ l, i.above = none → i.is_user = true) →
      (∀ i ∈ l, resolve_noncandidate i point below) →
      resolve_loop point below l ⟨none, none⟩ = .ok ⟨none, none⟩ := by
    intro l
    induction l with
    | nil =>
      intro _ _
      rfl
    | cons i rest ih =>
      intro h1 h2
      have hstep : resolve_step point below ⟨none, none⟩ i = .ok ⟨none, none⟩ := by
        rcases h2 i (List.mem_cons_self i rest) with ha | hrest
        · exact resolve_step_above_none point below ⟨none, none⟩ ha
            (h1 i (List.mem_cons_self i rest) ha)
        · cases hao : i.above with
          | none =>
            exact resolve_step_above_none point below ⟨none, none⟩ hao
              (h1 i (List.mem_cons_self i rest) hao)
          | some s =>
            rcases hrest with hg | ⟨cur, hc, hor⟩
            · exact resolve_step_pos_none point below ⟨none, none⟩ hao hg
            · rcases hor with hic | hlt
              · exact resolve_step_level point below ⟨none, none⟩ hao hc hic
              · cases hicv : float_isclose point.position cur with
                | true => exact resolve_step_level point below ⟨none, none⟩ hao hc hicv
                | false => exact resolve_step_wrong_side point below hao hc hicv hlt
      have hm : resolve_loop point below (i :: rest) ⟨none, none⟩ =
          (match resolve_step point below ⟨none, none⟩ i with
           | .error e => .error e
           | .ok acc2 => resolve_loop point below rest acc2) := rfl
      rw [hm, hstep]
      exact ih (fun j hj => h1 j (List.mem_cons_of_mem i hj))
        (fun j hj => h2 j (List.mem_cons_of_mem i hj))
  have hm : resolve_state interfaces ds point below =
      (match resolve_loop point below interfaces ⟨none, none⟩ with
       | .error e => .error e
       | .ok acc =>
         match acc.res with
         | some r =>
           match r.above, r.below with
           | some ra, some rb => if below then .ok ra else .ok rb
           | _, _ => .error .resolvedInterfaceMissingState
         | none => .ok ds) := rfl
  rw [hm, hloop interfaces hassert hnone]

/-- Concrete unresolved user interface (no states yet), for the C5 witness. -/
def iC5u : Interface := ⟨⟨0, 0⟩, 0, none, none, ⟨-1, 0⟩, none, true⟩

/-- C5 (witness): an engine holding only one unresolved user interface
resolves every query to the default state. -/
theorem resolve_state_default_witness :
    resolve_state [iC5u] ⟨3, 4⟩ ⟨0, 5⟩ true = .ok ⟨3, 4⟩ :=
  resolve_state_default [iC5u] ⟨3, 4⟩ ⟨0, 5⟩ true
    (fun i hi _ => by
      rcases List.mem_singleton.mp hi with rfl
      rfl)
    (fun i hi => by
      rcases List.mem_singleton.mp hi with rfl
      exact Or.inl rfl)

/-- Concrete user interface whose above state was resolved but whose below
state was never set, as set_above_state alone leaves it. -/
def iC5half : Interface := ⟨⟨0, 0⟩, 0, some ⟨1, 2⟩, none, ⟨-1, 0⟩, none, true⟩

/-- Query point of the C5 counterexample, strictly above the interface. -/
def pC5 : dtPoint := ⟨0, 5⟩

/-- C5 (counterexample): an interface that does not have both states resolved
(below is unset) is not excluded by resolve_state: it is selected as the
nearest interface below the query and the final assert fails, instead of the
interface being skipped and the default state returned. -/
theorem resolve_state_counterexample :
    iC5half.below = none ∧
    resolve_state [iC5half] ⟨3, 4⟩ pC5 true = .error .resolvedInterfaceMissingState := by
  have hpos : iC5half.get_pos_at_time (pC5.time + EPS_DRAWER) = some 0 := by
    norm_num [iC5half, pC5, Interface.get_pos_at_time, EPS_DRAWER]
  have hic : float_isclose pC5.position 0 = false := by
    norm_num [pC5, float_isclose, qabs, qmax, ABS_TOL, REL_TOL]
  have hge : decide ((1 : ℚ) * (pC5.position - 0) ≥ 0) = true := by
    norm_num [pC5]
  have hstep : resolve_step pC5 true ⟨none, none⟩ iC5half =
      .ok ⟨some iC5half, some ((1 : ℚ) * (pC5.position - 0))⟩ := by
    simp only [resolve_step, show iC5half.above = some ⟨1, 2⟩ from rfl, hpos, hic,
      Bool.false_eq_true, if_false, hge, if_true]
  have hloop : resolve_loop pC5 true [iC5half] ⟨none, none⟩ =
      .ok ⟨some iC5half, some ((1 : ℚ) * (pC5.position - 0))⟩ := by
    have hm : resolve_loop pC5 true [iC5half] ⟨none, none⟩ =
        (match resolve_step pC5 true ⟨none, none⟩ iC5half with
         | .error e => .error e
         | .ok acc2 => resolve_loop pC5 true [] acc2) := rfl
    rw [hm, hstep]
    rfl
  refine ⟨rfl, ?_⟩
  have hm : resolve_state [iC5half] ⟨3, 4⟩ pC5 true =
      (match resolve_loop pC5 true [iC5half] ⟨none, none⟩ with
       | .error e => .error e
       | .ok acc =>
         match acc.res with
         | some r =>
           match r.above, r.below with
           | some ra, some rb => if true then .ok ra else .ok rb
           | _, _ => .error .resolvedInterfaceMissingState
         | none => .ok ⟨3, 4⟩) := rfl
  rw [hm, hloop]
  rfl

/-- CapacityEvent of drawer_utils.py, restricted to the fields the handler
reads: the event point, the prior/posterior capacities (-1 encoding the
defaults) and the originating user interface. -/
structure CapacityEvent where
  point : dtPoint
  prior_capacity : ℚ
  posterior_capacity : ℚ
  iface : Interface
deriving DecidableEq, Repr

/-- Result of handle_capacity_event: the interfaces passed to _add_interface
in order, the event interface after its state updates, and the returned
state_created flag. -/
structure CapacityResult where
  created : List Interface
  iface : Interface
  flag : Bool
deriving DecidableEq, Repr

/-- Effective prior capacity of a capacity event: the below flow when the
event carries the -1 default. -/
def effective_prior (ev : CapacityEvent) (below : State) : ℚ :=
  if ev.prior_capacity = -1 then below.flow else ev.prior_capacity

/-- Raw posterior capacity before the queueing clamp: the diagram maximum
flow when the event carries the -1 default. -/
def raw_posterior (fd : FundamentalDiagram) (ev : CapacityEvent) : ℚ :=
  if ev.posterior_capacity = -1 then fd.get_max_state.flow else ev.posterior_capacity

/-- Effective posterior capacity: clamped by the below flow when the below
state is not queued (a free-flowing stream cannot emit more than it carries). -/
def effective_posterior (fd : FundamentalDiagram) (ev : CapacityEvent) (below : State)
    (queued : Bool) : ℚ :=
  if queued = false then min (raw_posterior fd ev) below.flow else raw_posterior fd ev

/-- State reconciliation of the originating interface after a derived
interface is created: which side of the originating interface is set depends
on whether its upper endpoint coincides with the event point and on the
relative slopes; cabove/cbelow are the above/below states of the derived
interface. -/
def update_event_interface (iface : Interface) (evpoint : dtPoint) (islope cslope : ℚ)
    (cabove cbelow : State) : Except Err Interface :=
  let upper_eq : Bool :=
    match iface.upper with
    | some u => dtPoint.eqv u evpoint
    | none => false
  if upper_eq then
    if decide (cslope < islope) then iface.set_below_state cbelow
    else if decide (cslope > islope) then iface.set_above_state cabove
    else .ok iface
  else
    if decide (cslope < islope) then iface.set_below_state cabove
    else if decide (cslope > islope) then iface.set_above_state cbelow
    else .ok iface

/-- Main phase of the capacity drop: derive the main interface on the
congested branch against the below state when it differs, checking the
derived slope against the originating slope, else record the below state on
the originating interface. -/
def capacity_drop_main (fd : FundamentalDiagram) (point : dtPoint) (iface : Interface)
    (below : State) (posterior interface_slope : ℚ) : Except Err CapacityResult :=
  let mis := fd.get_state_by_flow posterior false
  if State.eqv mis below = false then
    match fd.get_interface_slope mis.density below.density with
    | .error e => .error e
    | .ok ms =>
      if float_isclose ms interface_slope then .error .invalidInterfaceCreated
      else
        match update_event_interface iface point interface_slope ms mis below with
        | .error e => .error e
        | .ok i2 =>
          .ok ⟨[Interface.make point ms (some mis) (some below) (some point) none], i2, true⟩
  else
    match iface.set_below_state below with
    | .error e => .error e
    | .ok i2 => .ok ⟨[], i2, false⟩

/-- Byproduct phase of the capacity drop: derive the byproduct interface on
the free-flow branch against the above state when it differs, checking the
derived slope against the originating slope, else record the above state. -/
def capacity_drop_byproduct (fd : FundamentalDiagram) (point : dtPoint) (r1 : CapacityResult)
    (above : State) (posterior interface_slope : ℚ) : Except Err CapacityResult :=
  let bis := fd.get_state_by_flow posterior true
  if State.eqv bis above = false then
    match fd.get_interface_slope above.density bis.density with
    | .error e => .error e
    | .ok bs =>
      if float_isclose bs interface_slope then .error .invalidInterfaceCreated
      else
        match update_event_interface r1.iface point interface_slope bs above bis with
        | .error e => .error e
        | .ok i3 =>
          .ok ⟨r1.created ++ [Interface.make point bs (some above) (some bis) (some point) none],
            i3, true⟩
  else
    match r1.iface.set_above_state above with
    | .error e => .error e
    | .ok i3 => .ok ⟨r1.created, i3, r1.flag⟩

/-- Capacity-drop branch of handle_capacity_event: main phase for
conservation of vehicles entering the restriction, then byproduct phase for
vehicles released from it. -/
def capacity_drop (fd : FundamentalDiagram) (point : dtPoint) (iface : Interface)
    (above below : State) (posterior interface_slope : ℚ) : Except Err CapacityResult :=
  match capacity_drop_main fd point iface below posterior interface_slope with
  | .error e => .error e
  | .ok r1 => capacity_drop_byproduct fd point r1 above posterior interface_slope

/-- handle_capacity_event of ShockwaveDrawer: re-validate the originating
interface at the event time, resolve the above/below states when not
supplied, terminate early on a stale prior capacity, then either record a
pass-through interface (capacity not decreasing and stream able to absorb it)
or perform the capacity drop. -/
def handle_capacity_event (fd : FundamentalDiagram) (interfaces : List Interface)
    (default_state : State) (ev : CapacityEvent) (above0 below0 : Option State) :
    Except Err CapacityResult :=
  match ev.iface.get_pos_at_time ev.point.time with
  | none => .ok ⟨[], ev.iface, false⟩
  | some _ =>
    match (match above0 with
           | some s => Except.ok s
           | none => resolve_state interfaces default_state ev.point false) with
    | .error e => .error e
    | .ok above =>
      match (match below0 with
             | some s => Except.ok s
             | none => resolve_state interfaces default_state ev.point true) with
      | .error e => .error e
      | .ok below =>
        if effective_prior ev below ≠ below.flow then .ok ⟨[], ev.iface, false⟩
        else
          match ev.iface.get_slope with
          | .error e => .error e
          | .ok interface_slope =>
            match fd.state_is_queued below with
            | .error e => .error e
            | .ok queued =>
              let posterior := effective_posterior fd ev below queued
              if (decide (posterior > effective_prior ev below) ||
                  float_isclose posterior (effective_prior ev below)) &&
                  (!queued || State.eqv above below) then
                if float_isclose above.density below.density = false then
                  match fd.get_interface_slope above.density below.density with
                  | .error e => .error e
                  | .ok s =>
                    .ok ⟨[Interface.make ev.point s (some above) (some below)
                      (some ev.point) none], ev.iface, false⟩
                else .ok ⟨[], ev.iface, false⟩
              else capacity_drop fd ev.point ev.iface above below posterior interface_slope

theorem get_state_ok (fd : FundamentalDiagram) (x : ℚ) (h0 : 0 ≤ x)
    (hj : x ≤ fd.jam_density) : fd.get_state x = .ok ⟨x, fd.func x⟩ := by
  rw [FundamentalDiagram.get_state, if_neg (not_not_intro ⟨h0, hj⟩)]

theorem get_interface_slope_ok (fd : FundamentalDiagram) (x y : ℚ)
    (hx0 : 0 ≤ x) (hxj : x ≤ fd.jam_density) (hy0 : 0 ≤ y) (hyj : y ≤ fd.jam_density)
    (hne : float_isclose x y = false) :
    fd.get_interface_slope x y = .ok ((fd.func x - fd.func y) / (x - y)) := by
  rw [FundamentalDiagram.get_interface_slope]
  simp only [hne, Bool.false_eq_true, if_false, get_state_ok fd x hx0 hxj,
    get_state_ok fd y hy0 hyj]
  rfl

/-- C1: when a capacity event is handled (the originating interface is still
defined at the event point, the event prior matches the below flow, the
interface slope and queued test are defined, and the resolved state densities
lie in the diagram domain) and the below state is not queued, the effective
posterior capacity is clamped to at most the below flow; and whenever the
effective posterior capacity is greater than or tolerantly equal to the
effective prior capacity and the below state is not queued or above equals
below, no main or byproduct interface is created: exactly one pass-through
interface connecting the above and below states, lower-bounded at the event
point, is added if and only if the above and below densities differ
tolerantly. -/
theorem capacity_event_passthrough (fd : FundamentalDiagram) (interfaces : List Interface)
    (ds : State) (ev : CapacityEvent) (above below : State) (queued : Bool)
    (islope ppos : ℚ)
    (hpos : ev.iface.get_pos_at_time ev.point.time = some ppos)
    (hprior : effective_prior ev below = below.flow)
    (hslope : ev.iface.get_slope = .ok islope)
    (hq : fd.state_is_queued below = .ok queued)
    (hda0 : 0 ≤ above.density) (hdaj : above.density ≤ fd.jam_density)
    (hdb0 : 0 ≤ below.density) (hdbj : below.density ≤ fd.jam_density)
    (hcond : (effective_posterior fd ev below queued > effective_prior ev below ∨
        float_isclose (effective_posterior fd ev below queued)
          (effective_prior ev below) = true) ∧
      (queued = false ∨ State.eqv above below = true)) :
    (queued = false → effective_posterior fd ev below queued ≤ below.flow) ∧
    (float_isclose above.density below.density = false →
      ∃ σ, fd.get_interface_slope above.density below.density = .ok σ ∧
        handle_capacity_event fd interfaces ds ev (some above) (some below) =
          .ok ⟨[Interface.make ev.point σ (some above) (some below) (some ev.point) none],
            ev.iface, false⟩) ∧
    (float_isclose above.density below.density = true →
      handle_capacity_event fd interfaces ds ev (some above) (some below) =
        .ok ⟨[], ev.iface, false⟩) := by
  have hcondb : ((decide (effective_posterior fd ev below queued > effective_prior ev below) ||
      float_isclose (effective_posterior fd ev below queued) (effective_prior ev below)) &&
      (!queued || State.eqv above below)) = true := by
    rcases hcond with ⟨h1, h2⟩
    have hA : (decide (effective_posterior fd ev below queued > effective_prior ev below) ||
        float_isclose (effective_posterior fd ev below queued)
          (effective_prior ev below)) = true := by
      rcases h1 with h1 | h1
      · simp [h1]
      · simp [h1]
    have hB : (!queued || State.eqv above below) = true := by
      rcases h2 with h2 | h2
      · simp [h2]
      · simp [h2]
    rw [hA, hB]
    rfl
  have hred : handle_capacity_event fd interfaces ds ev (some above) (some below) =
      (if float_isclose above.density below.density = false then
        match fd.get_interface_slope above.density below.density with
        | .error e => .error e
        | .ok s =>
          .ok ⟨[Interface.make ev.point s (some above) (some below) (some ev.point) none],
            ev.iface, false⟩
      else .ok ⟨[], ev.iface, false⟩) := by
    simp only [handle_capacity_event, hpos, hslope, hq]
    rw [if_neg (not_not_intro hprior), if_pos hcondb]
  refine ⟨?_, ?_, ?_⟩
  · intro hqf
    rw [effective_posterior, hqf, if_pos rfl]
    exact min_le_right _ _
  · intro hdeq
    have hgis := get_interface_slope_ok fd above.density below.density hda0 hdaj hdb0 hdbj hdeq
    refine ⟨(fd.func above.density - fd.func below.density) / (above.density - below.density),
      hgis, ?_⟩
    rw [hred, if_pos hdeq]
    simp only [hgis]
  · intro hdeq
    rw [hred, if_neg (by simp [hdeq])]

/-- Concrete user interface of a horizontal bottleneck at position 10 over
times 0 to 5, for the C1 witness. -/
def iC1 : Interface := ⟨⟨0, 10⟩, 0, none, none, ⟨0, 10⟩, some ⟨5, 10⟩, true⟩

/-- Concrete capacity event carrying both -1 defaults, attached to iC1. -/
def evC1 : CapacityEvent := ⟨⟨0, 10⟩, -1, -1, iC1⟩

/-- C1 (witness): for fdBase with above = below = the initial state (1, 2),
a default capacity event is a pass-through with no interface created (the
densities are tolerantly equal), and the clamped posterior stays at the
below flow. -/
theorem capacity_event_passthrough_witness :
    effective_posterior fdBase evC1 ⟨1, 2⟩ false ≤ (2 : ℚ) ∧
    handle_capacity_event fdBase [] ⟨3, 4⟩ evC1 (some ⟨1, 2⟩) (some ⟨1, 2⟩) =
      .ok ⟨[], evC1.iface, false⟩ := by
  have hpos : evC1.iface.get_pos_at_time evC1.point.time = some 10 := by
    norm_num [evC1, iC1, Interface.get_pos_at_time]
  have hprior : effective_prior evC1 ⟨1, 2⟩ = (⟨1, 2⟩ : State).flow := by
    norm_num [evC1, effective_prior]
  have hslope : evC1.iface.get_slope = .ok 0 := by
    norm_num [evC1, iC1, Interface.get_slope, dtPoint.get_slope, float_isclose, qabs, qmax,
      ABS_TOL, REL_TOL]
  have hq : fdBase.state_is_queued ⟨1, 2⟩ = .ok false := by
    norm_num [FundamentalDiagram.state_is_queued, fdBase, FundamentalDiagram.capacity_density,
      float_isclose, qabs, qmax, ABS_TOL, REL_TOL]
  have hep : effective_posterior fdBase evC1 ⟨1, 2⟩ false = 2 := by
    norm_num [effective_posterior, raw_posterior, evC1, FundamentalDiagram.get_max_state,
      FundamentalDiagram.capacity, FundamentalDiagram.capacity_density, fdBase]
  have hpr2 : effective_prior evC1 ⟨1, 2⟩ = 2 := by
    norm_num [evC1, effective_prior]
  have h := capacity_event_passthrough fdBase [] ⟨3, 4⟩ evC1 ⟨1, 2⟩ ⟨1, 2⟩ false 0 10
    hpos hprior hslope hq (by norm_num) (by norm_num [fdBase]) (by norm_num)
    (by norm_num [fdBase])
    ⟨Or.inr (by rw [hep, hpr2]; exact float_isclose_refl 2), Or.inl rfl⟩
  refine ⟨?_, h.2.2 (float_isclose_refl 1)⟩
  rw [hep]

/-- Conditions under which the capacity drop derives a main interface whose
slope tolerantly equals the originating interface slope. -/
def main_slope_conflict (fd : FundamentalDiagram) (below : State) (posterior islope : ℚ) :
    Prop :=
  State.eqv (fd.get_state_by_flow posterior false) below = false ∧
  ∃ σ, fd.get_interface_slope (fd.get_state_by_flow posterior false).density below.density =
      .ok σ ∧ float_isclose σ islope = true

/-- Conditions under which the capacity drop skips the main interface, sets
the below state, and then derives a byproduct interface whose slope tolerantly
equals the originating interface slope. -/
def byproduct_slope_conflict (fd : FundamentalDiagram) (iface : Interface)
    (above below : State) (posterior islope : ℚ) : Prop :=
  State.eqv (fd.get_state_by_flow posterior false) below = true ∧
  (∃ i2, iface.set_below_state below = .ok i2) ∧
  State.eqv (fd.get_state_by_flow posterior true) above = false ∧
  ∃ σ, fd.get_interface_slope above.density (fd.get_state_by_flow posterior true).density =
      .ok σ ∧ float_isclose σ islope = true

/-- C7: during capacity event handling, when the capacity-drop branch is
taken and the derived main interface (or, the main phase passing through, the
derived byproduct interface) has a slope tolerantly equal to the originating
interface slope, the handler raises the fatal RuntimeError instead of
absorbing the condition. -/
theorem capacity_event_slope_conflict (fd : FundamentalDiagram) (interfaces : List Interface)
    (ds : State) (ev : CapacityEvent) (above below : State) (queued : Bool)
    (islope ppos : ℚ)
    (hpos : ev.iface.get_pos_at_time ev.point.time = some ppos)
    (hprior : effective_prior ev below = below.flow)
    (hslope : ev.iface.get_slope = .ok islope)
    (hq : fd.state_is_queued below = .ok queued)
    (hdrop : ((decide (effective_posterior fd ev below queued > effective_prior ev below) ||
        float_isclose (effective_posterior fd ev below queued) (effective_prior ev below)) &&
        (!queued || State.eqv above below)) = false)
    (h : main_slope_conflict fd below (effective_posterior fd ev below queued) islope ∨
      byproduct_slope_conflict fd ev.iface above below
        (effective_posterior fd ev below queued) islope) :
    handle_capacity_event fd interfaces ds ev (some above) (some below) =
      .error .invalidInterfaceCreated := by
  have hred : handle_capacity_event fd interfaces ds ev (some above) (some below) =
      capacity_drop fd ev.point ev.iface above below
        (effective_posterior fd ev below queued) islope := by
    simp only [handle_capacity_event, hpos, hslope, hq]
    rw [if_neg (not_not_intro hprior), if_neg (by simp [hdrop])]
  rw [hred]
  have hmm : capacity_drop fd ev.point ev.iface above below
      (effective_posterior fd ev below queued) islope =
      (match capacity_drop_main fd ev.point ev.iface below
          (effective_posterior fd ev below queued) islope with
       | .error e => .error e
       | .ok r1 => capacity_drop_byproduct fd ev.point r1 above
           (effective_posterior fd ev below queued) islope) := rfl
  rcases h with ⟨h1, σ, hσ, hclose⟩ | ⟨h1, ⟨i2, hset⟩, h3, σ, hσ, hclose⟩
  · have hmain : capacity_drop_main fd ev.point ev.iface below
        (effective_posterior fd ev below queued) islope = .error .invalidInterfaceCreated := by
      unfold capacity_drop_main
      rw [if_pos h1]
      simp only [hσ]
      rw [if_pos hclose]
    rw [hmm, hmain]
  · have hmain : capacity_drop_main fd ev.point ev.iface below
        (effective_posterior fd ev below queued) islope = .ok ⟨[], i2, false⟩ := by
      unfold capacity_drop_main
      rw [if_neg (by simp [h1])]
      simp only [hset]
    have hbyp : capacity_drop_byproduct fd ev.point ⟨[], i2, false⟩ above
        (effective_posterior fd ev below queued) islope = .error .invalidInterfaceCreated := by
      unfold capacity_drop_byproduct
      rw [if_pos h3]
      simp only [hσ]
      rw [if_pos hclose]
    rw [hmm, hmain]
    exact hbyp

/-- Concrete user interface of slope -1/2 from (0, 10) to (2, 9), for the C7
witness. -/
def iC7 : Interface := ⟨⟨0, 10⟩, -(1 / 2), none, none, ⟨0, 10⟩, some ⟨2, 9⟩, true⟩

/-- Concrete capacity event dropping the capacity to 0, attached to iC7. -/
def evC7 : CapacityEvent := ⟨⟨0, 10⟩, -1, 0, iC7⟩

/-- C7 (witness): for fdBase with above = below = the initial state (1, 2)
and a capacity drop to 0 on an interface of slope -1/2, the derived main
interface (jam state against the initial state) has slope -1/2 as well, and
the handler raises. -/
theorem capacity_event_slope_conflict_witness :
    handle_capacity_event fdBase [] ⟨3, 4⟩ evC7 (some ⟨1, 2⟩) (some ⟨1, 2⟩) =
      .error .invalidInterfaceCreated := by
  have hpos : evC7.iface.get_pos_at_time evC7.point.time = some 10 := by
    norm_num [evC7, iC7, Interface.get_pos_at_time]
  have hprior : effective_prior evC7 ⟨1, 2⟩ = (⟨1, 2⟩ : State).flow := by
    norm_num [evC7, effective_prior]
  have hslope : evC7.iface.get_slope = .ok (-(1 / 2)) := by
    norm_num [evC7, iC7, Interface.get_slope, dtPoint.get_slope, float_isclose, qabs, qmax,
      ABS_TOL, REL_TOL]
  have hq : fdBase.state_is_queued ⟨1, 2⟩ = .ok false := by
    norm_num [FundamentalDiagram.state_is_queued, fdBase, FundamentalDiagram.capacity_density,
      float_isclose, qabs, qmax, ABS_TOL, REL_TOL]
  have hep : effective_posterior fdBase evC7 ⟨1, 2⟩ false = 0 := by
    norm_num [effective_posterior, raw_posterior, evC7]
  have hpr : effective_prior evC7 ⟨1, 2⟩ = 2 := by
    norm_num [evC7, effective_prior]
  have hdrop : ((decide (effective_posterior fdBase evC7 ⟨1, 2⟩ false >
      effective_prior evC7 ⟨1, 2⟩) ||
      float_isclose (effective_posterior fdBase evC7 ⟨1, 2⟩ false)
        (effective_prior evC7 ⟨1, 2⟩)) &&
      (!false || State.eqv ⟨1, 2⟩ ⟨1, 2⟩)) = false := by
    rw [hep, hpr]
    norm_num [float_isclose, qabs, qmax, ABS_TOL, REL_TOL]
  have hmis : fdBase.get_state_by_flow 0 false = ⟨5, 0⟩ := by
    norm_num [FundamentalDiagram.get_state_by_flow, FundamentalDiagram.get_max_state,
      FundamentalDiagram.capacity, FundamentalDiagram.capacity_density, fdBase,
      float_isclose, qabs, qmax, ABS_TOL, REL_TOL]
  have hconf : main_slope_conflict fdBase ⟨1, 2⟩ 0 (-(1 / 2)) := by
    refine ⟨?_, ?_⟩
    · rw [hmis]
      norm_num [State.eqv, float_isclose, qabs, qmax, ABS_TOL, REL_TOL]
    · rw [hmis]
      have hgis := get_interface_slope_ok fdBase 5 1 (by norm_num) (by norm_num [fdBase])
        (by norm_num) (by norm_num [fdBase])
        (by norm_num [float_isclose, qabs, qmax, ABS_TOL, REL_TOL])
      refine ⟨(fdBase.func 5 - fdBase.func 1) / (5 - 1), hgis, ?_⟩
      have hv : (fdBase.func 5 - fdBase.func 1) / (5 - 1) = -(1 / 2) := by
        norm_num [FundamentalDiagram.func, FundamentalDiagram.capacity,
          FundamentalDiagram.capacity_density, fdBase]
      rw [hv]
      exact float_isclose_refl _
  refine capacity_event_slope_conflict fdBase [] ⟨3, 4⟩ evC7 ⟨1, 2⟩ ⟨1, 2⟩ false
    (-(1 / 2)) 10 hpos hprior hslope hq hdrop (Or.inl ?_)
  rw [hep]
  exact hconf

/-- Result of handle_intersection_event: the participating interfaces after
their cutoffs, the newly registered interface if any, and the returned flag. -/
structure IntersectionResult where
  updated : List Interface
  created : Option Interface
  flag : Bool
deriving DecidableEq, Repr

/-- Resolution pass of handle_intersection_event: assert that only the forced
path sees user interfaces, and keep the interfaces still defined at the event
time. -/
def filter_defined (p : dtPoint) (force : Bool) : List Interface → Except Err (List Interface)
  | [] => .ok []
  | i :: rest =>
    if force = false ∧ i.is_user = true then .error .userInterfaceInIntersection
    else
      match i.get_pos_at_time p.time with
      | none => filter_defined p force rest
      | some _ =>
        match filter_defined p force rest with
        | .error e => .error e
        | .ok l => .ok (i :: l)

/-- Accumulator of the slope sweep of handle_intersection_event. -/
structure SweepAcc where
  maxslope : Option ℚ
  below : Option State
  minslope : Option ℚ
  above : Option State
  bad : Bool
  updated : List Interface
deriving DecidableEq, Repr

/-- Maximum-slope update of the sweep: strict comparison, the earlier
interface wins ties; none encodes the initial negative infinity. -/
def sweep_max (acc : SweepAcc) (i : Interface) : SweepAcc :=
  if (match acc.maxslope with
      | none => true
      | some m => decide (i.slope > m)) then
    { acc with maxslope := some i.slope, below := i.below }
  else acc

/-- Minimum-slope update of the sweep: strict comparison, the earlier
interface wins ties; none encodes the initial positive infinity. -/
def sweep_min (acc : SweepAcc) (i : Interface) : SweepAcc :=
  if (match acc.minslope with
      | none => true
      | some m => decide (i.slope < m)) then
    { acc with minslope := some i.slope, above := i.above }
  else acc

/-- One iteration of the intersection sweep: update the slope extremes, then
attempt the upper cutoff at the event point, marking failure instead of
escalating. -/
def sweep_step (p : dtPoint) (acc : SweepAcc) (i : Interface) : SweepAcc :=
  let acc2 := sweep_min (sweep_max acc i) i
  match i.add_cutoff none (some p) with
  | .ok i2 => { acc2 with updated := acc2.updated ++ [i2] }
  | .error _ => { acc2 with bad := true, updated := acc2.updated ++ [i] }

/-- The intersection sweep over the participating interfaces, in order. -/
def sweep (p : dtPoint) : List Interface → SweepAcc → SweepAcc
  | [], acc => acc
  | i :: rest, acc => sweep p rest (sweep_step p acc i)

/-- handle_intersection_event of ShockwaveDrawer: discard interfaces no
longer defined at the event point, no-op when fewer than two remain, sweep
for the prevailing above/below states while applying upper cutoffs, and
create one new interface exactly when the prevailing states differ and no
cutoff failed. -/
def handle_intersection_event (fd : FundamentalDiagram) (cur_interfaces : List Interface)
    (point : dtPoint) (force : Bool) : Except Err IntersectionResult :=
  if cur_interfaces.length < 2 then .error .tooFewInterfaces
  else
    match filter_defined point force cur_interfaces with
    | .error e => .error e
    | .ok interfaces =>
      if interfaces.length ≤ 1 then .ok ⟨interfaces, none, false⟩
      else
        let acc := sweep point interfaces ⟨none, none, none, none, false, []⟩
        if acc.bad then .ok ⟨acc.updated, none, false⟩
        else
          match acc.above, acc.below with
          | some a, some b =>
            if State.eqv a b = false then
              match fd.get_interface_slope a.density b.density with
              | .error e => .error e
              | .ok s =>
                .ok ⟨acc.updated,
                  some (Interface.make point s (some a) (some b) (some point) none), true⟩
            else .ok ⟨acc.updated, none, false⟩
          | _, _ => .error .aboveBelowUnresolved

/-- The upper cutoff as applied by the sweep: the cut interface on success,
the interface unchanged when the cutoff raises. -/
def applied_cut (p : dtPoint) (i : Interface) : Interface :=
  match i.add_cutoff none (some p) with
  | .ok j => j
  | .error _ => i

/-- Whether the upper cutoff at p succeeds on an interface. -/
def cut_ok (p : dtPoint) (i : Interface) : Bool :=
  match i.add_cutoff none (some p) with
  | .ok _ => true
  | .error _ => false

theorem sweep_max_updated (acc : SweepAcc) (i : Interface) :
    (sweep_max acc i).updated = acc.updated := by
  unfold sweep_max
  split <;> rfl

theorem sweep_min_updated (acc : SweepAcc) (i : Interface) :
    (sweep_min acc i).updated = acc.updated := by
  unfold sweep_min
  split <;> rfl

theorem sweep_max_bad (acc : SweepAcc) (i : Interface) :
    (sweep_max acc i).bad = acc.bad := by
  unfold sweep_max
  split <;> rfl

theorem sweep_min_bad (acc : SweepAcc) (i : Interface) :
    (sweep_min acc i).bad = acc.bad := by
  unfold sweep_min
  split <;> rfl

theorem sweep_max_minslope (acc : SweepAcc) (i : Interface) :
    (sweep_max acc i).minslope = acc.minslope := by
  unfold sweep_max
  split <;> rfl

theorem sweep_max_above (acc : SweepAcc) (i : Interface) :
    (sweep_max acc i).above = acc.above := by
  unfold sweep_max
  split <;> rfl

theorem sweep_min_maxslope (acc : SweepAcc) (i : Interface) :
    (sweep_min acc i).maxslope = acc.maxslope := by
  unfold sweep_min
  split <;> rfl

theorem sweep_min_below (acc : SweepAcc) (i : Interface) :
    (sweep_min acc i).below = acc.below := by
  unfold sweep_min
  split <;> rfl

theorem sweep_step_updated (p : dtPoint) (acc : SweepAcc) (i : Interface) :
    (sweep_step p acc i).updated = acc.updated ++ [applied_cut p i] := by
  unfold sweep_step applied_cut
  cases hc : i.add_cutoff none (some p) <;>
    simp [sweep_min_updated, sweep_max_updated]

theorem sweep_step_bad (p : dtPoint) (acc : SweepAcc) (i : Interface) :
    (sweep_step p acc i).bad = (acc.bad || !cut_ok p i) := by
  unfold sweep_step cut_ok
  cases hc : i.add_cutoff none (some p) <;>
    simp [sweep_min_bad, sweep_max_bad]

theorem sweep_step_minslope (p : dtPoint) (acc : SweepAcc) (i : Interface) :
    (sweep_step p acc i).minslope = (sweep_min (sweep_max acc i) i).minslope := by
  unfold sweep_step
  cases hc : i.add_cutoff none (some p) <;> rfl

theorem sweep_step_above (p : dtPoint) (acc : SweepAcc) (i : Interface) :
    (sweep_step p acc i).above = (sweep_min (sweep_max acc i) i).above := by
  unfold sweep_step
  cases hc : i.add_cutoff none (some p) <;> rfl

theorem sweep_step_maxslope (p : dtPoint) (acc : SweepAcc) (i : Interface) :
    (sweep_step p acc i).maxslope = (sweep_max acc i).maxslope := by
  unfold sweep_step
  cases hc : i.add_cutoff none (some p) <;>
    simp [sweep_min_maxslope]

theorem sweep_step_below (p : dtPoint) (acc : SweepAcc) (i : Interface) :
    (sweep_step p acc i).below = (sweep_max acc i).below := by
  unfold sweep_step
  cases hc : i.add_cutoff none (some p) <;>
    simp [sweep_min_below]

theorem sweep_updated (p : dtPoint) :
    ∀ (l : List Interface) (acc : SweepAcc),
      (sweep p l acc).updated = acc.updated ++ l.map (applied_cut p) := by
  intro l
  induction l with
  | nil =>
    intro acc
    simp [sweep]
  | cons i rest ih =>
    intro acc
    show (sweep p rest (sweep_step p acc i)).updated = _
    rw [ih (sweep_step p acc i), sweep_step_updated]
    simp

theorem sweep_bad (p : dtPoint) :
    ∀ (l : List Interface) (acc : SweepAcc),
      (sweep p l acc).bad = (acc.bad || !(l.all (cut_ok p))) := by
  intro l
  induction l with
  | nil =>
    intro acc
    simp [sweep]
  | cons i rest ih =>
    intro acc
    show (sweep p rest (sweep_step p acc i)).bad = _
    rw [ih (sweep_step p acc i), sweep_step_bad]
    simp [List.all_cons, Bool.or_assoc]

theorem sweep_min_correct (p : dtPoint) :
    ∀ (l : List Interface) (acc : SweepAcc) (cur : Interface),
      acc.minslope = some cur.slope → acc.above = cur.above →
      ∃ m : Interface, (m = cur ∨ m ∈ l) ∧
        (sweep p l acc).minslope = some m.slope ∧ (sweep p l acc).above = m.above ∧
        m.slope ≤ cur.slope ∧ ∀ j ∈ l, m.slope ≤ j.slope := by
  intro l
  induction l with
  | nil =>
    intro acc cur h1 h2
    exact ⟨cur, Or.inl rfl, h1, h2, le_refl _, by simp⟩
  | cons i rest ih =>
    intro acc cur h1 h2
    by_cases hlt : i.slope < cur.slope
    · have hsm : sweep_min (sweep_max acc i) i =
          { sweep_max acc i with minslope := some i.slope, above := i.above } := by
        unfold sweep_min
        rw [sweep_max_minslope, h1]
        rw [if_pos (by simp [hlt])]
      have hms : (sweep_step p acc i).minslope = some i.slope := by
        rw [sweep_step_minslope, hsm]
      have hab : (sweep_step p acc i).above = i.above := by
        rw [sweep_step_above, hsm]
      obtain ⟨m, hm, hms2, hab2, hle, hall⟩ := ih (sweep_step p acc i) i hms hab
      refine ⟨m, ?_, hms2, hab2, le_trans hle (le_of_lt hlt), ?_⟩
      · rcases hm with rfl | hm
        · exact Or.inr (List.mem_cons_self m rest)
        · exact Or.inr (List.mem_cons_of_mem i hm)
      · intro j hj
        rcases List.mem_cons.mp hj with rfl | hj
        · exact hle
        · exact hall j hj
    · have hsm : sweep_min (sweep_max acc i) i = sweep_max acc i := by
        unfold sweep_min
        rw [sweep_max_minslope, h1]
        rw [if_neg (by simp [hlt])]
      have hms : (sweep_step p acc i).minslope = some cur.slope := by
        rw [sweep_step_minslope, hsm, sweep_max_minslope, h1]
      have hab : (sweep_step p acc i).above = cur.above := by
        rw [sweep_step_above, hsm, sweep_max_above, h2]
      obtain ⟨m, hm, hms2, hab2, hle, hall⟩ := ih (sweep_step p acc i) cur hms hab
      refine ⟨m, ?_, hms2, hab2, hle, ?_⟩
      · rcases hm with rfl | hm
        · exact Or.inl rfl
        · exact Or.inr (List.mem_cons_of_mem i hm)
      · intro j hj
        rcases List.mem_cons.mp hj with rfl | hj
        · exact le_trans hle (not_lt.mp hlt)
        · exact hall j hj

theorem sweep_max_correct (p : dtPoint) :
    ∀ (l : List Interface) (acc : SweepAcc) (cur : Interface),
      acc.maxslope = some cur.slope → acc.below = cur.below →
      ∃ m : Interface, (m = cur ∨ m ∈ l) ∧
        (sweep p l acc).maxslope = some m.slope ∧ (sweep p l acc).below = m.below ∧
        cur.slope ≤ m.slope ∧ ∀ j ∈ l, j.slope ≤ m.slope := by
  intro l
  induction l with
  | nil =>
    intro acc cur h1 h2
    exact ⟨cur, Or.inl rfl, h1, h2, le_refl _, by simp⟩
  | cons i rest ih =>
    intro acc cur h1 h2
    by_cases hgt : i.slope > cur.slope
    · have hsm : sweep_max acc i =
          { acc with maxslope := some i.slope, below := i.below } := by
        unfold sweep_max
        rw [h1]
        rw [if_pos (by simp [hgt])]
      have hms : (sweep_step p acc i).maxslope = some i.slope := by
        rw [sweep_step_maxslope, hsm]
      have hbl : (sweep_step p acc i).below = i.below := by
        rw [sweep_step_below, hsm]
      obtain ⟨m, hm, hms2, hbl2, hle, hall⟩ := ih (sweep_step p acc i) i hms hbl
      refine ⟨m, ?_, hms2, hbl2, le_trans (le_of_lt hgt) hle, ?_⟩
      · rcases hm with rfl | hm
        · exact Or.inr (List.mem_cons_self m rest)
        · exact Or.inr (List.mem_cons_of_mem i hm)
      · intro j hj
        rcases List.mem_cons.mp hj with rfl | hj
        · exact hle
        · exact hall j hj
    · have hsm : sweep_max acc i = acc := by
        unfold sweep_max
        rw [h1]
        rw [if_neg (by simp [hgt])]
      have hms : (sweep_step p acc i).maxslope = some cur.slope := by
        rw [sweep_step_maxslope, hsm, h1]
      have hbl : (sweep_step p acc i).below = cur.below := by
        rw [sweep_step_below, hsm, h2]
      obtain ⟨m, hm, hms2, hbl2, hle, hall⟩ := ih (sweep_step p acc i) cur hms hbl
      refine ⟨m, ?_, hms2, hbl2, hle, ?_⟩
      · rcases hm with rfl | hm
        · exact Or.inl rfl
        · exact Or.inr (List.mem_cons_of_mem i hm)
      · intro j hj
        rcases List.mem_cons.mp hj with rfl | hj
        · exact le_trans (not_lt.mp hgt) hle
        · exact hall j hj

theorem sweep_select (p : dtPoint) (i : Interface) (rest : List Interface) :
    ∃ ma mb : Interface, ma ∈ i :: rest ∧ mb ∈ i :: rest ∧
      (sweep p (i :: rest) ⟨none, none, none, none, false, []⟩).above = ma.above ∧
      (sweep p (i :: rest) ⟨none, none, none, none, false, []⟩).below = mb.below ∧
      (∀ j ∈ i :: rest, ma.slope ≤ j.slope) ∧ (∀ j ∈ i :: rest, j.slope ≤ mb.slope) := by
  have hstep : sweep p (i :: rest) ⟨none, none, none, none, false, []⟩ =
      sweep p rest (sweep_step p ⟨none, none, none, none, false, []⟩ i) := rfl
  have hmax0 : sweep_max ⟨none, none, none, none, false, []⟩ i =
      { (⟨none, none, none, none, false, []⟩ : SweepAcc) with
        maxslope := some i.slope, below := i.below } := by
    unfold sweep_max
    rw [if_pos rfl]
  have hmin0 : sweep_min (sweep_max ⟨none, none, none, none, false, []⟩ i) i =
      { sweep_max ⟨none, none, none, none, false, []⟩ i with
        minslope := some i.slope, above := i.above } := by
    unfold sweep_min
    rw [sweep_max_minslope]
    rw [if_pos rfl]
  have hms0 : (sweep_step p ⟨none, none, none, none, false, []⟩ i).minslope = some i.slope := by
    rw [sweep_step_minslope, hmin0]
  have hab0 : (sweep_step p ⟨none, none, none, none, false, []⟩ i).above = i.above := by
    rw [sweep_step_above, hmin0]
  have hxs0 : (sweep_step p ⟨none, none, none, none, false, []⟩ i).maxslope = some i.slope := by
    rw [sweep_step_maxslope, hmax0]
  have hbl0 : (sweep_step p ⟨none, none, none, none, false, []⟩ i).below = i.below := by
    rw [sweep_step_below, hmax0]
  obtain ⟨ma, hma, _, haba, hlea, halla⟩ :=
    sweep_min_correct p rest (sweep_step p ⟨none, none, none, none, false, []⟩ i) i hms0 hab0
  obtain ⟨mb, hmb, _, hblb, hleb, hallb⟩ :=
    sweep_max_correct p rest (sweep_step p ⟨none, none, none, none, false, []⟩ i) i hxs0 hbl0
  refine ⟨ma, mb, ?_, ?_, ?_, ?_, ?_, ?_⟩
  · rcases hma with rfl | hma
    · exact List.mem_cons_self ma rest
    · exact List.mem_cons_of_mem i hma
  · rcases hmb with rfl | hmb
    · exact List.mem_cons_self mb rest
    · exact List.mem_cons_of_mem i hmb
  · rw [hstep]
    exact haba
  · rw [hstep]
    exact hblb
  · intro j hj
    rcases List.mem_cons.mp hj with rfl | hj
    · exact hlea
    · exact halla j hj
  · intro j hj
    rcases List.mem_cons.mp hj with rfl | hj
    · exact hleb
    · exact hallb j hj

theorem filter_defined_ok (p : dtPoint) (force : Bool) :
    ∀ l : List Interface, (∀ i ∈ l, force = true ∨ i.is_user = false) →
      filter_defined p force l =
        .ok (l.filter (fun i => (i.get_pos_at_time p.time).isSome)) := by
  intro l
  induction l with
  | nil =>
    intro _
    rfl
  | cons i rest ih =>
    intro h
    have hni : ¬(force = false ∧ i.is_user = true) := by
      rcases h i (List.mem_cons_self i rest) with hf | hu
      · rintro ⟨hf2, _⟩
        rw [hf] at hf2
        exact Bool.noConfusion hf2
      · rintro ⟨_, hu2⟩
        rw [hu] at hu2
        exact Bool.noConfusion hu2
    have hrest := ih (fun j hj => h j (List.mem_cons_of_mem i hj))
    simp only [filter_defined]
    rw [if_neg hni]
    cases hg : i.get_pos_at_time p.time with
    | none => simp [hrest, hg, List.filter_cons]
    | some v => simp [hrest, hg, List.filter_cons]

/-- C2: when an intersection event is handled, interfaces no longer defined
at the event point are discarded, the handler is a no-op when fewer than two
remain, the prevailing above state is the above of a remaining interface of
minimal slope and the prevailing below state is the below of a remaining
interface of maximal slope, every remaining interface receives the upper
cutoff at the intersection point (the updated list is exactly the cutoffs
applied in order, an interface staying unchanged when its cutoff raises), and
exactly one new interface, lower-bounded at the point with slope the
diagram interface slope between the prevailing densities, is created and
registered if and only if the prevailing states differ and no cutoff failed
validation. -/
theorem intersection_event_spec (fd : FundamentalDiagram) (cur : List Interface)
    (point : dtPoint) (force : Bool)
    (hlen : 2 ≤ cur.length)
    (hassert : ∀ i ∈ cur, force = true ∨ i.is_user = false)
    (rem : List Interface)
    (hrem : filter_defined point force cur = .ok rem) :
    rem = cur.filter (fun i => (i.get_pos_at_time point.time).isSome) ∧
    (rem.length ≤ 1 → handle_intersection_event fd cur point force = .ok ⟨rem, none, false⟩) ∧
    (2 ≤ rem.length → (∀ i ∈ rem, i.above.isSome ∧ i.below.isSome) →
      ∃ a b,
        (∃ ma ∈ rem, ma.above = some a ∧ ∀ j ∈ rem, ma.slope ≤ j.slope) ∧
        (∃ mb ∈ rem, mb.below = some b ∧ ∀ j ∈ rem, j.slope ≤ mb.slope) ∧
        ((rem.all (cut_ok point) = false ∨ State.eqv a b = true) →
          handle_intersection_event fd cur point force =
            .ok ⟨rem.map (applied_cut point), none, false⟩) ∧
        (rem.all (cut_ok point) = true → State.eqv a b = false →
          ∀ σ, fd.get_interface_slope a.density b.density = .ok σ →
          handle_intersection_event fd cur point force =
            .ok ⟨rem.map (applied_cut point),
              some (Interface.make point σ (some a) (some b) (some point) none), true⟩)) := by
  have hfd := filter_defined_ok point force cur hassert
  have hremeq : rem = cur.filter (fun i => (i.get_pos_at_time point.time).isSome) :=
    (Except.ok.inj (hfd.symm.trans hrem)).symm
  have hbody : handle_intersection_event fd cur point force =
      (if rem.length ≤ 1 then (Except.ok ⟨rem, none, false⟩ : Except Err IntersectionResult)
       else
         if (sweep point rem ⟨none, none, none, none, false, []⟩).bad then
           .ok ⟨(sweep point rem ⟨none, none, none, none, false, []⟩).updated, none, false⟩
         else
           match (sweep point rem ⟨none, none, none, none, false, []⟩).above,
               (sweep point rem ⟨none, none, none, none, false, []⟩).below with
           | some a, some b =>
             if State.eqv a b = false then
               match fd.get_interface_slope a.density b.density with
               | .error e => .error e
               | .ok s =>
                 .ok ⟨(sweep point rem ⟨none, none, none, none, false, []⟩).updated,
                   some (Interface.make point s (some a) (some b) (some point) none), true⟩
             else
               .ok ⟨(sweep point rem ⟨none, none, none, none, false, []⟩).updated, none, false⟩
           | _, _ => .error .aboveBelowUnresolved) := by
    unfold handle_intersection_event
    rw [if_neg (not_lt.mpr hlen)]
    simp only [hrem]
  refine ⟨hremeq, ?_, ?_⟩
  · intro h1
    rw [hbody, if_pos h1]
  · intro h2 hstates
    obtain ⟨i0, rest0, rfl⟩ : ∃ i0 rest0, rem = i0 :: rest0 := by
      cases rem with
      | nil => simp at h2
      | cons i0 rest0 => exact ⟨i0, rest0, rfl⟩
    obtain ⟨ma, mb, hma, hmb, haba, hblb, halla, hallb⟩ := sweep_select point i0 rest0
    obtain ⟨a, ha⟩ := Option.isSome_iff_exists.mp (hstates ma hma).1
    obtain ⟨b, hb⟩ := Option.isSome_iff_exists.mp (hstates mb hmb).2
    have hA : (sweep point (i0 :: rest0) ⟨none, none, none, none, false, []⟩).above = some a := by
      rw [haba, ha]
    have hB : (sweep point (i0 :: rest0) ⟨none, none, none, none, false, []⟩).below = some b := by
      rw [hblb, hb]
    have hupd : (sweep point (i0 :: rest0) ⟨none, none, none, none, false, []⟩).updated =
        (i0 :: rest0).map (applied_cut point) := by
      rw [sweep_updated]
      simp
    have hnotle : ¬((i0 :: rest0).length ≤ 1) := by omega
    refine ⟨a, b, ⟨ma, hma, ha, halla⟩, ⟨mb, hmb, hb, hallb⟩, ?_, ?_⟩
    · intro hcase
      cases hall : (i0 :: rest0).all (cut_ok point) with
      | false =>
        have hbad : (sweep point (i0 :: rest0) ⟨none, none, none, none, false, []⟩).bad = true := by
          rw [sweep_bad]
          simp [hall]
        rw [hbody, if_neg hnotle, if_pos hbad, hupd]
      | true =>
        have heqv : State.eqv a b = true := by
          rcases hcase with hcase | hcase
          · rw [hall] at hcase
            exact Bool.noConfusion hcase
          · exact hcase
        have hbad : (sweep point (i0 :: rest0) ⟨none, none, none, none, false, []⟩).bad
            = false := by
          rw [sweep_bad]
          simp [hall]
        rw [hbody, if_neg hnotle, if_neg (by simp [hbad])]
        simp only [hA, hB]
        rw [if_neg (by simp [heqv]), hupd]
    · intro hall heqv σ hσ
      have hbad : (sweep point (i0 :: rest0) ⟨none, none, none, none, false, []⟩).bad
          = false := by
        rw [sweep_bad]
        simp [hall]
      rw [hbody, if_neg hnotle, if_neg (by simp [hbad])]
      simp only [hA, hB]
      rw [if_pos heqv]
      simp only [hσ]
      rw [hupd]

/-- Concrete organic interface of slope 1 through the origin, defined at the
witness event point. -/
def jC2 : Interface := ⟨⟨0, 0⟩, 1, some ⟨1, 2⟩, some ⟨5, 0⟩, ⟨0, 0⟩, none, false⟩

/-- Concrete organic interface cut off before the witness event point, so it
is discarded by the handler. -/
def jC2far : Interface := ⟨⟨0, 0⟩, 0, some ⟨1, 2⟩, some ⟨1, 2⟩, ⟨0, 0⟩, some ⟨1 / 2, 0⟩, false⟩

/-- Event point of the C2 witness. -/
def pC2 : dtPoint := ⟨1, 1⟩

/-- C2 (witness): of the two interfaces reported at the event point, one is
no longer defined there and is discarded, leaving one: the handler is a
no-op. -/
theorem intersection_event_spec_witness :
    handle_intersection_event fdBase [jC2, jC2far] pC2 false = .ok ⟨[jC2], none, false⟩ := by
  have hg1 : jC2.get_pos_at_time pC2.time = some 1 := by
    norm_num [jC2, pC2, Interface.get_pos_at_time]
  have hg2 : jC2far.get_pos_at_time pC2.time = none := by
    norm_num [jC2far, pC2, Interface.get_pos_at_time]
  have hu1 : jC2.is_user = false := rfl
  have hu2 : jC2far.is_user = false := rfl
  have hrem : filter_defined pC2 false [jC2, jC2far] = .ok [jC2] := by
    simp [filter_defined, hg1, hg2, hu1, hu2]
  have h := intersection_event_spec fdBase [jC2, jC2far] pC2 false (by norm_num)
    (fun i hi => by
      rcases List.mem_cons.mp hi with rfl | hi2
      · exact Or.inr rfl
      · rcases List.mem_singleton.mp hi2 with rfl
        exact Or.inr rfl)
    [jC2] hrem
  exact h.2.1 (by norm_num)

end TrafficShock
